import Mathlib

/-!
Shallow embedding of `cupyx/scipy/sparse/linalg/_iterative.py` (the `cg` and
`gmres` iterative solvers) and verification of the frozen claims about it.

Modelling conventions:
* Scalars are modelled as real numbers (`ℝ`); the source supports the dtypes
  'f','d','F','D'.  We model the real case, so `.conj()` in the source is the
  identity and the conjugate inner product coincides with the plain dot
  product.  The dtype character is still carried so the dtype validation
  (`A.dtype.char not in 'fdFD'`) is modelled faithfully.
* Arrays are a shape (list of dimensions) plus row-major flat data, mirroring
  `ndarray.shape` / `ravel()`.
* `cupy.linalg.norm` (an external collaborator, out of the spec's scope) is
  the Euclidean norm, `Real.sqrt` of the sum of squares.
* Python exceptions are an explicit error type; the source raises
  `ValueError` for shape problems (the spec's `ShapeError`), `TypeError` for
  unsupported dtypes, `ValueError` for a bad `callback_type` (the spec's
  `ConfigurationError`), and a `NameError` when `resid` is read unassigned.
* `while` loops are modelled with fuel.  `cg`'s loop runs at most `maxiter`
  iterations so fuel `maxiter` is exact.  `gmres`'s `while True` loop is run
  with fuel `maxiter + 1`, which is enough whenever the effective restart is
  at least 1; a run that exhausts fuel (only possible when restart = 0, where
  the source raises IndexError / loops) is reported as `none`.
* The number of applications of the operator `A` and the arguments passed to
  the user callback are recorded in a log so that claims about "never invokes
  apply" and callback invocation counts can be stated.
* The dense least-squares solver `scipy.linalg.lstsq` is an external
  collaborator (spec §1: out of scope, specified only by interface); `gmres`
  is parametrised over it.
-/

namespace CupyIter

noncomputable section

/-- Vectors: flat sequences of (real) scalars. -/
abbrev Vec := List ℝ

/-- Elementwise addition (`v + w`). -/
def vadd (v w : Vec) : Vec := List.zipWith (· + ·) v w

/-- Elementwise subtraction (`v - w`). -/
def vsub (v w : Vec) : Vec := List.zipWith (· - ·) v w

/-- Scalar multiplication (`a * v`). -/
def smul (a : ℝ) (v : Vec) : Vec := v.map (fun t => a * t)

/-- Elementwise division by a scalar (`v / a`). -/
def vdiv (v : Vec) (a : ℝ) : Vec := v.map (fun t => t / a)

/-- Conjugate inner product `cupy.dot(v.conj(), w)`; scalars are modelled
real, so conjugation is the identity. -/
def dotc (v w : Vec) : ℝ := (List.zipWith (· * ·) v w).sum

/-- The zero vector of length `n` (`cupy.zeros((n,))`). -/
def zeros (n : ℕ) : Vec := List.replicate n 0

/-- Euclidean norm `cupy.linalg.norm` (external vector primitive). -/
noncomputable def nrm (v : Vec) : ℝ := Real.sqrt (dotc v v)

/-- Split a flat row-major data list into `k` rows of width `w`. -/
def chunkRows (w : ℕ) : ℕ → Vec → List Vec
  | 0, _ => []
  | k + 1, d => d.take w :: chunkRows w k (d.drop w)

/-- Matrix-vector product `A @ v` for an `n × n` matrix stored row-major. -/
def matApply (n : ℕ) (Ad : Vec) (v : Vec) : Vec :=
  (chunkRows n n Ad).map (fun row => dotc row v)

/-- `Σ_i y_i * cols_i`, i.e. `cols @ y` with `cols` a list of columns
(`V @ y` in the source). -/
def lincomb (n : ℕ) (cols : List Vec) (y : Vec) : Vec :=
  (List.zipWith smul y cols).foldl vadd (zeros n)

/-- An ndarray: shape, row-major flat data, dtype character. -/
structure Arr where
  shape : List ℕ
  data : Vec
  dtype : Char

/-- `ndarray.ndim`. -/
def Arr.ndim (a : Arr) : ℕ := a.shape.length

/-- `A.dtype.char in 'fdFD'`. -/
def dtypeOK (c : Char) : Prop := c = 'f' ∨ c = 'd' ∨ c = 'F' ∨ c = 'D'

instance (c : Char) : Decidable (dtypeOK c) := by unfold dtypeOK; infer_instance

/-- The Python exceptions the two solvers can raise, one constructor per
raise site.  The `shape*` constructors are `ValueError`s about shapes (the
spec's `ShapeError` taxon), `dtypeErr` is the unsupported-dtype `TypeError`,
`cbTypeErr` the unknown-`callback_type` `ValueError` (the spec's
`ConfigurationError`), and `nameResid` the `NameError` raised when the
unassigned local `resid` is read after a zero-iteration `cg` loop. -/
inductive Err
  | shapeA | dtypeErr | shapeB | shapeX0 | shapeM | cbTypeErr | nameResid
deriving DecidableEq

/-- Is this error one of the shape `ValueError`s (spec: `ShapeError`)? -/
def Err.isShape : Err → Prop
  | .shapeA => True
  | .shapeB => True
  | .shapeX0 => True
  | .shapeM => True
  | _ => False

/-- The initial iterate: `x0.ravel()` if given, else `cupy.zeros((n,))`. -/
def xInitOf (n : ℕ) (x0 : Option Arr) : Vec :=
  match x0 with
  | none => zeros n
  | some a => a.data

/-- The preconditioner application `psolve`: identity when `M is None`,
otherwise `M @ v`. -/
def apMOf (n : ℕ) (M : Option Arr) : Vec → Vec :=
  match M with
  | none => id
  | some Ma => matApply n Ma.data

/-- Effective absolute tolerance computed by `cg` (lines 46-53): `tol` when
`atol` is unspecified and `‖b‖ = 0`, `tol * ‖b‖` when `atol` is unspecified
and `‖b‖ ≠ 0`, and `max(atol, tol * ‖b‖)` when `atol` is given. -/
noncomputable def effAtolCG (atol : Option ℝ) (tol bNorm : ℝ) : ℝ :=
  match atol with
  | none => if bNorm = 0 then tol else tol * bNorm
  | some a => max a (tol * bNorm)

/-- Effective absolute tolerance computed by `gmres` (lines 151-154); the
`‖b‖ = 0` case never arrives here because `gmres` returns at line 150. -/
noncomputable def effAtolGM (atol : Option ℝ) (tol bNorm : ℝ) : ℝ :=
  match atol with
  | none => tol * bNorm
  | some a => max a (tol * bNorm)

/-! ### CG solver (source lines 8-99) -/

/-- The mutable state of `cg`'s `while` loop, plus instrumentation: the
number of `A @ _` applications performed and the arguments passed to the
callback.  `resid` is an `Option` because the Python local `resid` is
unassigned until the first iteration completes. -/
structure CGState where
  x : Vec
  r : Vec
  p : Vec
  rho : ℝ
  iters : ℕ
  resid : Option ℝ
  applyCount : ℕ
  cbTrace : List Vec

/-- One iteration of `cg`'s loop body (source lines 76-91). -/
noncomputable def cgStepF (apA apM : Vec → Vec) (callback : Bool) (s : CGState) : CGState :=
  let z := apM s.r
  let rho1 := s.rho
  let rho := dotc s.r z
  let p := if s.iters = 0 then z else vadd z (smul (rho / rho1) s.p)
  let q := apA p
  let alpha := rho / dotc p q
  let x := vadd s.x (smul alpha p)
  let r := vsub s.r (smul alpha q)
  let tr := if callback then s.cbTrace ++ [x] else s.cbTrace
  ⟨x, r, p, rho, s.iters + 1, some (nrm r), s.applyCount + 1, tr⟩

/-- `cg`'s `while iters < maxiter` loop (source lines 75-93), fuelled by the
number of remaining iterations; the body breaks when `resid <= atol`. -/
noncomputable def cgLoop (apA apM : Vec → Vec) (atolE : ℝ) (callback : Bool) :
    ℕ → CGState → CGState
  | 0, s => s
  | fuel + 1, s =>
    let s' := cgStepF apA apM callback s
    if nrm s'.r ≤ atolE then s' else cgLoop apA apM atolE callback fuel s'

/-- Observables of a `cg` run: operator-application count, callback
arguments, the loop's final iteration count, the final value of the Python
local `resid` (None = never assigned), and the effective tolerance used in
the convergence test (None = never computed). -/
structure CGLog where
  applyCount : ℕ
  cbTrace : List Vec
  exitIters : ℕ
  exitResid : Option ℝ
  usedAtol : Option ℝ

/-- Log of a run that ended during setup. -/
def CGLog.empty : CGLog := ⟨0, [], 0, none, none⟩

/-- The part of `cg` after all validation: initial residual
`r = b - A @ x` (line 72), the iteration loop, and the `info` computation
(lines 95-97).  Python's `if iters == maxiter and not (resid <= atol)`
short-circuits, so `resid` is only read when `iters == maxiter`; reading it
unassigned raises `NameError`. -/
noncomputable def cgCore (apA apM : Vec → Vec) (bv xInit : Vec) (maxit : ℕ)
    (callback : Bool) (atolE : ℝ) : Except Err (Vec × ℕ) × CGLog :=
  let s0 : CGState := ⟨xInit, vsub bv (apA xInit), [], 0, 0, none, 1, []⟩
  let sF := cgLoop apA apM atolE callback maxit s0
  let log : CGLog := ⟨sF.applyCount, sF.cbTrace, sF.iters, sF.resid, some atolE⟩
  if sF.iters = maxit then
    match sF.resid with
    | none => (.error .nameResid, log)
    | some rs => (.ok (sF.x, if ¬ (rs ≤ atolE) then sF.iters else 0), log)
  else (.ok (sF.x, 0), log)

/-- `maxiter` defaulting (line 60-61) and the preconditioner shape check
(lines 65-70), then `cgCore`. -/
noncomputable def cgMain (n : ℕ) (A : Arr) (bv xInit : Vec) (maxiter : Option ℕ)
    (M : Option Arr) (callback : Bool) (atolE : ℝ) : Except Err (Vec × ℕ) × CGLog :=
  let maxit := maxiter.getD (n * 10)
  match M with
  | some Ma =>
    if A.shape = Ma.shape then
      cgCore (matApply n A.data) (matApply n Ma.data) bv xInit maxit callback atolE
    else (.error .shapeM, CGLog.empty)
  | none => cgCore (matApply n A.data) id bv xInit maxit callback atolE

/-- `cupyx.scipy.sparse.linalg.cg` (source lines 8-99).  `callback` is
modelled as a flag (the arguments it would receive are recorded in the log).
The validations appear in source order: square-matrix check (36), dtype
check (38), `b` shape check (41), the `n == 0` early return (44), effective
tolerance (46-53), `x0` validation (54-59), `maxiter` default and `M` check
(60-70). -/
noncomputable def cg (A b : Arr) (x0 : Option Arr) (tol : ℝ) (maxiter : Option ℕ)
    (M : Option Arr) (callback : Bool) (atol : Option ℝ) :
    Except Err (Vec × ℕ) × CGLog :=
  if A.ndim = 2 ∧ A.shape.getD 0 0 = A.shape.getD 1 0 then
    if dtypeOK A.dtype then
      let n := A.shape.getD 0 0
      if b.shape = [n] ∨ b.shape = [n, 1] then
        if n = 0 then (.ok ([], 0), CGLog.empty)
        else
          let atolE := effAtolCG atol tol (nrm b.data)
          match x0 with
          | some x0a =>
            if x0a.shape = [n] ∨ x0a.shape = [n, 1] then
              cgMain n A b.data x0a.data maxiter M callback atolE
            else (.error .shapeX0, CGLog.empty)
          | none => cgMain n A b.data (zeros n) maxiter M callback atolE
      else (.error .shapeB, CGLog.empty)
    else (.error .dtypeErr, CGLog.empty)
  else (.error .shapeA, CGLog.empty)

/-! ### GMRES solver (source lines 102-221) -/

/-- An argument passed to `gmres`'s callback: the vector `mx` when
`callback_type == 'x'`, the scalar `r_norm / b_norm` when `'pr_norm'`. -/
inductive CbArg
  | vec (v : Vec)
  | scal (a : ℝ)

/-- The mutable state of `gmres`'s restart-cycle loop, plus instrumentation:
`checks` records `(mx, r_norm)` at each cycle boundary (each evaluation of
lines 189-191). -/
structure GMState where
  x : Vec
  iters : ℕ
  applyCount : ℕ
  cbTrace : List CbArg
  checks : List (Vec × ℝ)

/-- One step of the Arnoldi `for j in range(restart)` loop (lines 202-209):
`z = psolve(V[:, j])`, `u = matvec(z)`, projection coefficients
`H[:j+1, j]`, orthogonalisation, `H[j+1, j] = ‖u‖`, and the next basis
column when `j + 1 < restart`.  The accumulator is `(V, H)` with `V` the
basis columns so far and `H` the completed Hessenberg columns (each of
length `restart + 1`; entries below `j + 1` keep their initial zero). -/
def arnoldiStep (apA apM : Vec → Vec) (n rst : ℕ) (acc : List Vec × List Vec)
    (j : ℕ) : List Vec × List Vec :=
  let V := acc.1
  let z := apM (V.getD j [])
  let u := apA z
  let hs := (V.take (j + 1)).map (fun vi => dotc vi u)
  let u1 := vsub u (lincomb n (V.take (j + 1)) hs)
  let hjj := nrm u1
  let hcol := hs ++ hjj :: zeros (rst - 1 - j)
  (if j + 1 < rst then V ++ [vdiv u1 hjj] else V, acc.2 ++ [hcol])

/-- The full Arnoldi process of one restart cycle, starting from the first
basis column `v0 = r / r_norm`; returns the basis columns and the columns of
the `(restart+1) × restart` Hessenberg matrix.  It performs exactly one
application of `A` per step, `rst` in total. -/
def arnoldi (apA apM : Vec → Vec) (n rst : ℕ) (v0 : Vec) : List Vec × List Vec :=
  (List.range rst).foldl (arnoldiStep apA apM n rst) ([v0], [])

/-- `gmres`'s `while True` restart-cycle loop (lines 188-216), fuelled.
Each cycle: `mx = psolve(x)`, true residual and its norm, the callback
(with `mx` for `'x'`; with `r_norm / b_norm` for `'pr_norm'`, skipped when
`iters == 0`), the termination check `r_norm <= atol or iters >= maxiter`,
then the Arnoldi process, the least-squares solve `lstsq(H, e)` with
`e = [r_norm, 0, ..., 0]`, the update `x += V @ y`, and `iters += restart`.
Returns the break-time `(mx, r_norm)` (`none` if fuel ran out) and the final
state. -/
def gmLoop (apA apM : Vec → Vec) (bv : Vec) (bNorm atolE : ℝ) (rst maxit n : ℕ)
    (cte : Option String) (lstsqFn : List Vec → Vec → Vec) :
    ℕ → GMState → Option (Vec × ℝ) × GMState
  | 0, s => (none, s)
  | fuel + 1, s =>
    let mx := apM s.x
    let r := vsub bv (apA mx)
    let rn := nrm r
    let tr :=
      if cte = some "x" then s.cbTrace ++ [CbArg.vec mx]
      else if cte = some "pr_norm" ∧ 0 < s.iters then
        s.cbTrace ++ [CbArg.scal (rn / bNorm)]
      else s.cbTrace
    let s1 : GMState := ⟨s.x, s.iters, s.applyCount + 1, tr, s.checks ++ [(mx, rn)]⟩
    if rn ≤ atolE ∨ s.iters ≥ maxit then (some (mx, rn), s1)
    else
      let v0 := vdiv r rn
      let e := rn :: zeros rst
      let VH := arnoldi apA apM n rst v0
      let y := lstsqFn VH.2 e
      gmLoop apA apM bv bNorm atolE rst maxit n cte lstsqFn fuel
        ⟨vadd s.x (lincomb n VH.1 y), s.iters + rst, s1.applyCount + rst, tr, s1.checks⟩

/-- Observables of a `gmres` run, analogous to `CGLog`; `checks` lists
`(mx, r_norm)` at every cycle boundary, `exitX` is the internally tracked
iterate at exit, `exitResid` the `r_norm` at the break (`none` if the model
ran out of fuel). -/
structure GMLog where
  applyCount : ℕ
  cbTrace : List CbArg
  checks : List (Vec × ℝ)
  exitIters : ℕ
  exitX : Vec
  exitResid : Option ℝ
  usedAtol : Option ℝ

/-- Log of a run that ended during setup. -/
def GMLog.empty : GMLog := ⟨0, [], [], 0, [], none, none⟩

/-- The part of `gmres` after all validation: the cycle loop and the `info`
computation (lines 218-220), `info = iters` iff `iters == maxiter` and the
final `r_norm` failed the tolerance test, else `0`; the returned solution is
`mx`.  The result is `none` when the model's fuel (`maxiter + 1` cycles,
ample whenever `restart ≥ 1`) is exhausted. -/
def gmCore (apA apM : Vec → Vec) (bv xInit : Vec) (bNorm atolE : ℝ)
    (rst maxit n : ℕ) (cte : Option String) (lstsqFn : List Vec → Vec → Vec) :
    Except Err (Option (Vec × ℕ)) × GMLog :=
  let s0 : GMState := ⟨xInit, 0, 0, [], []⟩
  let out := gmLoop apA apM bv bNorm atolE rst maxit n cte lstsqFn (maxit + 1) s0
  match out with
  | (some (mx, rn), sF) =>
    (.ok (some (mx, if sF.iters = maxit ∧ ¬ (rn ≤ atolE) then sF.iters else 0)),
      ⟨sF.applyCount, sF.cbTrace, sF.checks, sF.iters, sF.x, some rn, some atolE⟩)
  | (none, sF) =>
    (.ok none, ⟨sF.applyCount, sF.cbTrace, sF.checks, sF.iters, sF.x, none, some atolE⟩)

/-- `maxiter` and `restart` defaulting (lines 161-165), `callback_type`
resolution and validation (lines 167-172), the `M` shape check (lines
176-181), then `gmCore`. -/
def gmMain (n : ℕ) (A : Arr) (bv xInit : Vec) (bNorm atolE : ℝ)
    (restart maxiter : Option ℕ) (M : Option Arr) (callback : Bool)
    (cbType : Option String) (lstsqFn : List Vec → Vec → Vec) :
    Except Err (Option (Vec × ℕ)) × GMLog :=
  let maxit := maxiter.getD (n * 10)
  let rst := min (restart.getD 20) n
  let ct := cbType.getD "pr_norm"
  if ct = "x" ∨ ct = "pr_norm" then
    let cte : Option String := if callback then some ct else none
    match M with
    | some Ma =>
      if A.shape = Ma.shape then
        gmCore (matApply n A.data) (matApply n Ma.data) bv xInit bNorm atolE
          rst maxit n cte lstsqFn
      else (.error .shapeM, GMLog.empty)
    | none =>
      gmCore (matApply n A.data) id bv xInit bNorm atolE rst maxit n cte lstsqFn
  else (.error .cbTypeErr, GMLog.empty)

/-- `cupyx.scipy.sparse.linalg.gmres` (source lines 102-221), parametrised
over the external dense least-squares solver `lstsqFn` (`scipy.linalg.lstsq`,
which receives the Hessenberg columns and `e` and returns the minimiser of
the residual 2-norm).  Validations in source order: square-matrix check
(138), dtype check (140), `b` shape check (143), `n == 0` early return
(146), the `‖b‖ == 0` early return of `(b, 0)` (149-150), effective
tolerance (151-154), `x0` validation (155-160), then `gmMain`. -/
def gmres (A b : Arr) (x0 : Option Arr) (tol : ℝ) (restart maxiter : Option ℕ)
    (M : Option Arr) (callback : Bool) (atol : Option ℝ) (cbType : Option String)
    (lstsqFn : List Vec → Vec → Vec) : Except Err (Option (Vec × ℕ)) × GMLog :=
  if A.ndim = 2 ∧ A.shape.getD 0 0 = A.shape.getD 1 0 then
    if dtypeOK A.dtype then
      let n := A.shape.getD 0 0
      if b.shape = [n] ∨ b.shape = [n, 1] then
        if n = 0 then (.ok (some ([], 0)), GMLog.empty)
        else
          let bNorm := nrm b.data
          if bNorm = 0 then (.ok (some (b.data, 0)), GMLog.empty)
          else
            let atolE := effAtolGM atol tol bNorm
            match x0 with
            | some x0a =>
              if x0a.shape = [n] ∨ x0a.shape = [n, 1] then
                gmMain n A b.data x0a.data bNorm atolE restart maxiter M callback
                  cbType lstsqFn
              else (.error .shapeX0, GMLog.empty)
            | none =>
              gmMain n A b.data (zeros n) bNorm atolE restart maxiter M callback
                cbType lstsqFn
      else (.error .shapeB, GMLog.empty)
    else (.error .dtypeErr, GMLog.empty)
  else (.error .shapeA, GMLog.empty)

/-! ### Specification twin of the CG iteration (claim C5)

`cgSpecStep`/`cgSpecRun` are written from the spec's words (§4.2): per
iteration k, z = M.apply(r); ρ = ⟨r, z⟩; p = z on the first iteration,
otherwise z + (ρ_current/ρ_previous)·p_prev; q = A.apply(p);
α = ρ / ⟨p, q⟩; x ← x + α·p; r ← r − α·q; stop when ‖r‖ ≤ effective
tolerance or the iteration count reaches maxiter.  They are to be compared
with the implementation (`cgStepF`/`cgLoop`). -/

/-- State of the spec-side CG recurrence: iterate, residual, search
direction, previous ρ, iteration count. -/
structure CGSpecState where
  x : Vec
  r : Vec
  p : Vec
  rhoPrev : ℝ
  k : ℕ

/-- One iteration of the spec's CG algorithm (spec §4.2, steps 1-7). -/
def cgSpecStep (apA apM : Vec → Vec) (s : CGSpecState) : CGSpecState :=
  let z := apM s.r
  let rho := dotc s.r z
  let p := if s.k = 0 then z else vadd z (smul (rho / s.rhoPrev) s.p)
  let q := apA p
  let alpha := rho / dotc p q
  ⟨vadd s.x (smul alpha p), vsub s.r (smul alpha q), p, rho, s.k + 1⟩

/-- The spec's CG iteration run: repeat `cgSpecStep`, stopping when
`‖r‖ ≤` effective tolerance (checked after each iteration) or the iteration
count reaches `maxiter` (the fuel). -/
def cgSpecRun (apA apM : Vec → Vec) (atolE : ℝ) : ℕ → CGSpecState → CGSpecState
  | 0, s => s
  | fuel + 1, s =>
    let s' := cgSpecStep apA apM s
    if nrm s'.r ≤ atolE then s' else cgSpecRun apA apM atolE fuel s'

/-! ### Lemmas about the CG loop -/

/-- The implementation state and the spec state agree on the mathematical
fields. -/
def cgAgrees (s : CGState) (t : CGSpecState) : Prop :=
  s.x = t.x ∧ s.r = t.r ∧ s.p = t.p ∧ s.rho = t.rhoPrev ∧ s.iters = t.k

/-- The callback-trace relation: the recorded callback arguments are
exactly one per recorded cycle boundary for `callback_type = 'x'`, one per
boundary after the first for `'pr_norm'` (the first pre-iteration check is
skipped), and none when the callback is absent. -/
def gmTraceRel (bNorm : ℝ) (cte : Option String) (s : GMState) : Prop :=
  (cte = some "x" → s.cbTrace = s.checks.map (fun c => CbArg.vec c.1)) ∧
  (cte = some "pr_norm" →
    s.cbTrace = (s.checks.drop 1).map (fun c => CbArg.scal (c.2 / bNorm))) ∧
  (cte = none → s.cbTrace = [])

/-- 3×3 cyclic-shift matrix: `A·e₁ = e₂`, `A·e₂ = e₃`, `A·e₃ = e₁`. -/
def Acyc : Arr := ⟨[3, 3], [0, 0, 1, 1, 0, 0, 0, 1, 0], 'd'⟩

/-- Right-hand side `e₁`. -/
def bE1 : Arr := ⟨[3], [1, 0, 0], 'd'⟩

/-- Instantiation of the external dense least-squares collaborator for the
counterexample run.  The one system that run presents is
`H = [[0,1,0],[0,0,1]]` (columns), `e = [1,0,0]`, whose unique least-squares
solution is `[0, 0]` (see `lstsqCex_minimizes`). -/
def lstsqCex : List Vec → Vec → Vec := fun _ _ => [0, 0]

theorem cgStepF_agrees (apA apM : Vec → Vec) (cb : Bool) (s : CGState)
    (t : CGSpecState) (h : cgAgrees s t) :
    cgAgrees (cgStepF apA apM cb s) (cgSpecStep apA apM t) := by
  obtain ⟨hx, hr, hp, hrho, hk⟩ := h
  simp only [cgStepF, cgSpecStep, hx, hr, hp, hrho, hk]
  exact ⟨rfl, rfl, rfl, rfl, rfl⟩

theorem cgLoop_agrees (apA apM : Vec → Vec) (atolE : ℝ) (cb : Bool) :
    ∀ (fuel : ℕ) (s : CGState) (t : CGSpecState), cgAgrees s t →
      cgAgrees (cgLoop apA apM atolE cb fuel s) (cgSpecRun apA apM atolE fuel t)
  | 0, s, t, h => h
  | fuel + 1, s, t, h => by
    have hstep := cgStepF_agrees apA apM cb s t h
    simp only [cgLoop, cgSpecRun, hstep.2.1]
    split
    · exact hstep
    · exact cgLoop_agrees apA apM atolE cb fuel _ _ hstep

/-- The loop either consumes all its fuel or broke out with a residual that
passed the tolerance test. -/
theorem cgLoop_exit (apA apM : Vec → Vec) (atolE : ℝ) (cb : Bool) :
    ∀ (fuel : ℕ) (s : CGState),
      (cgLoop apA apM atolE cb fuel s).iters = s.iters + fuel ∨
      ∃ rs, (cgLoop apA apM atolE cb fuel s).resid = some rs ∧ rs ≤ atolE
  | 0, s => by simp [cgLoop]
  | fuel + 1, s => by
    simp only [cgLoop]
    split
    · right
      exact ⟨nrm (cgStepF apA apM cb s).r, rfl, by assumption⟩
    · rcases cgLoop_exit apA apM atolE cb fuel (cgStepF apA apM cb s) with h | h
      · left
        rw [h]
        simp [cgStepF]
        omega
      · right
        exact h

/-- Once `resid` has been assigned it stays assigned. -/
theorem cgLoop_resid_isSome (apA apM : Vec → Vec) (atolE : ℝ) (cb : Bool) :
    ∀ (fuel : ℕ) (s : CGState), s.resid.isSome →
      (cgLoop apA apM atolE cb fuel s).resid.isSome
  | 0, _, h => h
  | fuel + 1, s, _ => by
    simp only [cgLoop]
    split
    · simp [cgStepF]
    · exact cgLoop_resid_isSome apA apM atolE cb fuel _ (by simp [cgStepF])

/-- After at least one iteration, the Python local `resid` is assigned. -/
theorem cgLoop_resid_some (apA apM : Vec → Vec) (atolE : ℝ) (cb : Bool)
    (fuel : ℕ) (s : CGState) (h : 1 ≤ fuel) :
    (cgLoop apA apM atolE cb fuel s).resid.isSome := by
  obtain ⟨f, rfl⟩ : ∃ f, fuel = f + 1 := ⟨fuel - 1, by omega⟩
  simp only [cgLoop]
  split
  · simp [cgStepF]
  · exact cgLoop_resid_isSome apA apM atolE cb f _ (by simp [cgStepF])

/-- The loop's final state is an iterate of the step function, with the
iteration counter counting the steps taken. -/
theorem cgLoop_iterate (apA apM : Vec → Vec) (atolE : ℝ) (cb : Bool) :
    ∀ (fuel : ℕ) (s : CGState), ∃ m ≤ fuel,
      cgLoop apA apM atolE cb fuel s = (cgStepF apA apM cb)^[m] s ∧
      (cgLoop apA apM atolE cb fuel s).iters = s.iters + m
  | 0, s => ⟨0, le_refl 0, rfl, by simp [cgLoop]⟩
  | fuel + 1, s => by
    simp only [cgLoop]
    split
    · exact ⟨1, by omega, by simp [Function.iterate_one], by simp [cgStepF]⟩
    · obtain ⟨m, hm, heq, hit⟩ := cgLoop_iterate apA apM atolE cb fuel (cgStepF apA apM cb s)
      refine ⟨m + 1, by omega, ?_, ?_⟩
      · rw [heq, Function.iterate_succ_apply]
      · rw [hit]
        simp [cgStepF]
        omega

/-- With the callback enabled, `m` iterations of the step function append
exactly the `m` successive iterates to the callback trace. -/
theorem cgStepF_trace (apA apM : Vec → Vec) :
    ∀ (m : ℕ) (s : CGState),
      ((cgStepF apA apM true)^[m] s).cbTrace =
        s.cbTrace ++ (List.range m).map
          (fun k => ((cgStepF apA apM true)^[k + 1] s).x)
  | 0, s => by simp
  | m + 1, s => by
    rw [Function.iterate_succ_apply' (cgStepF apA apM true) m s]
    have hrec := cgStepF_trace apA apM m s
    have : (cgStepF apA apM true ((cgStepF apA apM true)^[m] s)).cbTrace =
        ((cgStepF apA apM true)^[m] s).cbTrace ++
          [(cgStepF apA apM true ((cgStepF apA apM true)^[m] s)).x] := by
      simp [cgStepF]
    rw [this, hrec, List.range_succ, List.map_append, List.append_assoc]
    simp [Function.iterate_succ_apply']

/-! ### Lemmas about the GMRES loop -/

section GMLemmas

variable (apA apM : Vec → Vec) (bv : Vec) (bNorm atolE : ℝ) (rst maxit n : ℕ)
variable (cte : Option String) (lstsqFn : List Vec → Vec → Vec)

/-- With an effective restart of at least 1, fuel `maxiter + 1` is enough:
the loop breaks rather than running out of fuel. -/
theorem gmLoop_some : ∀ (fuel : ℕ) (s : GMState), 1 ≤ rst → 1 ≤ fuel →
    maxit < s.iters + fuel →
    (gmLoop apA apM bv bNorm atolE rst maxit n cte lstsqFn fuel s).1.isSome
  | 0, _, _, hf, _ => absurd hf (by omega)
  | fuel + 1, s, hrst, _, h => by
    by_cases hiters : maxit ≤ s.iters
    · simp only [gmLoop]
      rw [if_pos (Or.inr hiters)]
      rfl
    · simp only [gmLoop]
      split
      · rfl
      · match fuel, h with
        | fuel + 1, h =>
          exact gmLoop_some (fuel + 1) _ hrst (by omega)
            (by show maxit < s.iters + rst + (fuel + 1); omega)
        | 0, h => exact absurd h (by omega)

/-- At a break, the returned solution is the preconditioned point
`mx = psolve(x)` of the final state's internally tracked iterate `x`. -/
theorem gmLoop_mx : ∀ (fuel : ℕ) (s : GMState) (mx : Vec) (rn : ℝ),
    (gmLoop apA apM bv bNorm atolE rst maxit n cte lstsqFn fuel s).1 = some (mx, rn) →
    mx = apM (gmLoop apA apM bv bNorm atolE rst maxit n cte lstsqFn fuel s).2.x
  | 0, s, mx, rn => by simp [gmLoop]
  | fuel + 1, s, mx, rn => by
    simp only [gmLoop]
    split
    · intro h
      simp only [Option.some.injEq, Prod.mk.injEq] at h
      simp [← h.1]
    · exact gmLoop_mx fuel _ mx rn

theorem gmLoop_trace : ∀ (fuel : ℕ) (s : GMState), 1 ≤ rst →
    gmTraceRel bNorm cte s → (s.iters = 0 ↔ s.checks = []) →
    gmTraceRel bNorm cte
      (gmLoop apA apM bv bNorm atolE rst maxit n cte lstsqFn fuel s).2
  | 0, _, _, h, _ => h
  | fuel + 1, s, hrst, h, hiff => by
    obtain ⟨hX, hP, hN⟩ := h
    have hstep : gmTraceRel bNorm cte
        ⟨s.x, s.iters, s.applyCount + 1,
          (if cte = some "x" then s.cbTrace ++ [CbArg.vec (apM s.x)]
           else if cte = some "pr_norm" ∧ 0 < s.iters then
             s.cbTrace ++ [CbArg.scal (nrm (vsub bv (apA (apM s.x))) / bNorm)]
           else s.cbTrace),
          s.checks ++ [(apM s.x, nrm (vsub bv (apA (apM s.x))))]⟩ := by
      refine ⟨?_, ?_, ?_⟩
      · intro hc
        rw [if_pos hc]
        simp only [hX hc, List.map_append, List.map_cons, List.map_nil]
      · intro hc
        rw [if_neg (by simp [hc])]
        by_cases hi : 0 < s.iters
        · rw [if_pos ⟨hc, hi⟩]
          have hne : s.checks ≠ [] := fun hnil => by
            have := hiff.mpr hnil
            omega
          obtain ⟨c0, cs, hck⟩ := List.exists_cons_of_ne_nil hne
          simp only [hP hc, hck, List.cons_append, List.drop_succ_cons,
            List.drop_zero, List.map_append, List.map_cons, List.map_nil]
        · rw [if_neg (by simp [hi])]
          have h0 : s.checks = [] := hiff.mp (by omega)
          simp only [hP hc, h0, List.nil_append, List.drop_succ_cons,
            List.drop_nil, List.map_nil]
      · intro hc
        rw [if_neg (by simp [hc]), if_neg (by simp [hc])]
        exact hN hc
    simp only [gmLoop]
    split
    · exact hstep
    · refine gmLoop_trace fuel _ hrst ⟨hstep.1, hstep.2.1, hstep.2.2⟩ ?_
      constructor
      · intro hz
        exfalso
        have : s.iters + rst = 0 := hz
        omega
      · intro hz
        exfalso
        have : s.checks ++ [(apM s.x, nrm (vsub bv (apA (apM s.x))))] = [] := hz
        simp at this

end GMLemmas

/-! ### Setup-unfolding lemmas: runs that pass all validation -/

/-- A `cg` call whose inputs pass every setup check reduces to the core
iteration. -/
theorem cg_eq_core (A b : Arr) (x0 : Option Arr) (tol : ℝ) (maxiter : Option ℕ)
    (M : Option Arr) (cb : Bool) (atol : Option ℝ) (n : ℕ)
    (hnA : A.shape.getD 0 0 = n)
    (hA : A.ndim = 2 ∧ A.shape.getD 0 0 = A.shape.getD 1 0)
    (hD : dtypeOK A.dtype)
    (hb : b.shape = [n] ∨ b.shape = [n, 1])
    (hn : n ≠ 0)
    (hx0 : ∀ a ∈ x0, a.shape = [n] ∨ a.shape = [n, 1])
    (hM : ∀ m ∈ M, m.shape = A.shape) :
    cg A b x0 tol maxiter M cb atol =
      cgCore (matApply n A.data) (apMOf n M) b.data (xInitOf n x0)
        (maxiter.getD (n * 10)) cb (effAtolCG atol tol (nrm b.data)) := by
  simp only [cg, cgMain, hnA]
  rw [if_pos (show A.ndim = 2 ∧ n = A.shape.getD 1 0 from ⟨hA.1, hnA ▸ hA.2⟩),
    if_pos hD, if_pos hb, if_neg hn]
  cases x0 with
  | none =>
    cases M with
    | none => rfl
    | some Ma => simp [apMOf, xInitOf, hM Ma rfl]
  | some xa =>
    cases M with
    | none => simp [apMOf, xInitOf, hx0 xa rfl]
    | some Ma => simp [apMOf, xInitOf, hx0 xa rfl, hM Ma rfl]

/-- A `gmres` call whose inputs pass every setup check, with a nonzero
right-hand side, reduces to the core cycle loop. -/
theorem gm_eq_core (A b : Arr) (x0 : Option Arr) (tol : ℝ)
    (restart maxiter : Option ℕ) (M : Option Arr) (cb : Bool) (atol : Option ℝ)
    (cbType : Option String) (lstsqFn : List Vec → Vec → Vec) (n : ℕ)
    (hnA : A.shape.getD 0 0 = n)
    (hA : A.ndim = 2 ∧ A.shape.getD 0 0 = A.shape.getD 1 0)
    (hD : dtypeOK A.dtype)
    (hb : b.shape = [n] ∨ b.shape = [n, 1])
    (hn : n ≠ 0)
    (hbn : ¬ nrm b.data = 0)
    (hx0 : ∀ a ∈ x0, a.shape = [n] ∨ a.shape = [n, 1])
    (hct : cbType.getD "pr_norm" = "x" ∨ cbType.getD "pr_norm" = "pr_norm")
    (hM : ∀ m ∈ M, m.shape = A.shape) :
    gmres A b x0 tol restart maxiter M cb atol cbType lstsqFn =
      gmCore (matApply n A.data) (apMOf n M) b.data (xInitOf n x0) (nrm b.data)
        (effAtolGM atol tol (nrm b.data)) (min (restart.getD 20) n)
        (maxiter.getD (n * 10)) n
        (if cb then some (cbType.getD "pr_norm") else none) lstsqFn := by
  simp only [gmres, gmMain, hnA]
  rw [if_pos (show A.ndim = 2 ∧ n = A.shape.getD 1 0 from ⟨hA.1, hnA ▸ hA.2⟩),
    if_pos hD, if_pos hb, if_neg hn, if_neg hbn]
  cases x0 with
  | none =>
    cases M with
    | none => simp [apMOf, xInitOf, hct]
    | some Ma => simp [apMOf, xInitOf, hct, hM Ma rfl]
  | some xa =>
    cases M with
    | none => simp [apMOf, xInitOf, hct, hx0 xa rfl]
    | some Ma => simp [apMOf, xInitOf, hct, hx0 xa rfl, hM Ma rfl]

/-- A `gmres` call with valid shapes, `n ≥ 1` and a zero-norm right-hand
side returns `(b, 0)` immediately, before `x0`, `callback_type` or `M` are
even looked at. -/
theorem gm_eq_zero_b (A b : Arr) (x0 : Option Arr) (tol : ℝ)
    (restart maxiter : Option ℕ) (M : Option Arr) (cb : Bool) (atol : Option ℝ)
    (cbType : Option String) (lstsqFn : List Vec → Vec → Vec) (n : ℕ)
    (hnA : A.shape.getD 0 0 = n)
    (hA : A.ndim = 2 ∧ A.shape.getD 0 0 = A.shape.getD 1 0)
    (hD : dtypeOK A.dtype)
    (hb : b.shape = [n] ∨ b.shape = [n, 1])
    (hn : n ≠ 0)
    (hbz : nrm b.data = 0) :
    gmres A b x0 tol restart maxiter M cb atol cbType lstsqFn =
      (.ok (some (b.data, 0)), GMLog.empty) := by
  simp only [gmres, hnA]
  rw [if_pos (show A.ndim = 2 ∧ n = A.shape.getD 1 0 from ⟨hA.1, hnA ▸ hA.2⟩),
    if_pos hD, if_pos hb, if_neg hn, if_pos hbz]

/-! ### Small evaluation lemmas -/

theorem dotc_zeros (n : ℕ) : dotc (zeros n) (zeros n) = 0 := by
  induction n with
  | zero => simp [dotc, zeros]
  | succ k ih =>
    simp only [zeros, List.replicate_succ, dotc, List.zipWith_cons_cons,
      List.sum_cons, mul_zero, zero_add]
    simp only [dotc, zeros] at ih
    exact ih

theorem nrm_zeros (n : ℕ) : nrm (zeros n) = 0 := by
  rw [nrm, dotc_zeros, Real.sqrt_zero]

theorem cgCore_usedAtol (apA apM : Vec → Vec) (bv xi : Vec) (maxit : ℕ)
    (cb : Bool) (atolE : ℝ) :
    (cgCore apA apM bv xi maxit cb atolE).2.usedAtol = some atolE := by
  simp only [cgCore]
  split
  · split <;> rfl
  · rfl

theorem cgCore_error (apA apM : Vec → Vec) (bv xi : Vec) (maxit : ℕ)
    (cb : Bool) (atolE : ℝ) (e : Err) :
    (cgCore apA apM bv xi maxit cb atolE).1 = .error e → e = .nameResid := by
  simp only [cgCore]
  split
  · split
    · intro h
      injection h with h
      exact h.symm
    · intro h
      cases h
  · intro h
    cases h

theorem gmCore_ok (apA apM : Vec → Vec) (bv xi : Vec) (bNorm atolE : ℝ)
    (rst maxit n : ℕ) (cte : Option String) (lstsqFn : List Vec → Vec → Vec) :
    ∃ r, (gmCore apA apM bv xi bNorm atolE rst maxit n cte lstsqFn).1 = .ok r := by
  simp only [gmCore]
  split <;> exact ⟨_, rfl⟩

theorem gmCore_usedAtol (apA apM : Vec → Vec) (bv xi : Vec) (bNorm atolE : ℝ)
    (rst maxit n : ℕ) (cte : Option String) (lstsqFn : List Vec → Vec → Vec) :
    (gmCore apA apM bv xi bNorm atolE rst maxit n cte lstsqFn).2.usedAtol =
      some atolE := by
  simp only [gmCore]
  split <;> rfl

/-- The loop's final `resid`, when the loop moved at all, is the norm of the
final residual vector. -/
theorem cgLoop_resid_r (apA apM : Vec → Vec) (atolE : ℝ) (cb : Bool) :
    ∀ (fuel : ℕ) (s : CGState),
      cgLoop apA apM atolE cb fuel s = s ∨
      (cgLoop apA apM atolE cb fuel s).resid =
        some (nrm (cgLoop apA apM atolE cb fuel s).r)
  | 0, _ => Or.inl rfl
  | fuel + 1, s => by
    simp only [cgLoop]
    split
    · right
      rfl
    · rcases cgLoop_resid_r apA apM atolE cb fuel (cgStepF apA apM cb s) with h | h
      · right
        rw [h]
        rfl
      · right
        exact h

/-- `cgCore`, factored through the final loop state. -/
theorem cgCore_eq (apA apM : Vec → Vec) (bv xi : Vec) (maxit : ℕ) (cb : Bool)
    (atolE : ℝ) (sF : CGState)
    (hsF : sF = cgLoop apA apM atolE cb maxit
      ⟨xi, vsub bv (apA xi), [], 0, 0, none, 1, []⟩) :
    cgCore apA apM bv xi maxit cb atolE =
      ((if sF.iters = maxit then
          match sF.resid with
          | none => .error .nameResid
          | some rs => .ok (sF.x, if ¬ (rs ≤ atolE) then sF.iters else 0)
        else .ok (sF.x, 0)),
        ⟨sF.applyCount, sF.cbTrace, sF.iters, sF.resid, some atolE⟩) := by
  subst hsF
  simp only [cgCore]
  split
  · split <;> rfl
  · rfl

/-- `gmCore`, factored through the loop's break output. -/
theorem gmCore_eq (apA apM : Vec → Vec) (bv xi : Vec) (bNorm atolE : ℝ)
    (rst maxit n : ℕ) (cte : Option String) (lstsqFn : List Vec → Vec → Vec)
    (mx : Vec) (rn : ℝ) (sF : GMState)
    (h : gmLoop apA apM bv bNorm atolE rst maxit n cte lstsqFn (maxit + 1)
      ⟨xi, 0, 0, [], []⟩ = (some (mx, rn), sF)) :
    gmCore apA apM bv xi bNorm atolE rst maxit n cte lstsqFn =
      (.ok (some (mx, if sF.iters = maxit ∧ ¬ (rn ≤ atolE) then sF.iters else 0)),
        ⟨sF.applyCount, sF.cbTrace, sF.checks, sF.iters, sF.x, some rn,
          some atolE⟩) := by
  simp only [gmCore, h]

/-! ### Claim theorems -/

/-- Claim C6: for every valid square `A` with `n = 0` and compatible empty
`b`, both `cg` and `gmres` return an empty solution vector with status `0`
and never invoke the operator's `apply` (the returned logs are the empty
logs, whose `applyCount` is `0`). -/
theorem C6_trivial_n0 (A b : Arr) (x0 : Option Arr) (tol : ℝ)
    (restart maxiter : Option ℕ) (M : Option Arr) (cb : Bool) (atol : Option ℝ)
    (cbType : Option String) (lstsqFn : List Vec → Vec → Vec)
    (hA0 : A.shape = [0, 0]) (hD : dtypeOK A.dtype)
    (hb : b.shape = [0] ∨ b.shape = [0, 1]) :
    cg A b x0 tol maxiter M cb atol = (.ok ([], 0), CGLog.empty) ∧
    gmres A b x0 tol restart maxiter M cb atol cbType lstsqFn =
      (.ok (some ([], 0)), GMLog.empty) ∧
    (cg A b x0 tol maxiter M cb atol).2.applyCount = 0 ∧
    (gmres A b x0 tol restart maxiter M cb atol cbType lstsqFn).2.applyCount = 0 := by
  have h1 : cg A b x0 tol maxiter M cb atol = (.ok ([], 0), CGLog.empty) := by
    simp [cg, hA0, Arr.ndim, hD, hb]
  have h2 : gmres A b x0 tol restart maxiter M cb atol cbType lstsqFn =
      (.ok (some ([], 0)), GMLog.empty) := by
    simp [gmres, hA0, Arr.ndim, hD, hb]
  exact ⟨h1, h2, by rw [h1]; rfl, by rw [h2]; rfl⟩

/-- Claim C6 witness: a concrete `0 × 0` system. -/
theorem C6_trivial_n0_witness :
    dtypeOK 'd' ∧
    (cg ⟨[0, 0], [], 'd'⟩ ⟨[0], [], 'd'⟩ none (1 / 100000) none none false none =
        (.ok ([], 0), CGLog.empty) ∧
      gmres ⟨[0, 0], [], 'd'⟩ ⟨[0], [], 'd'⟩ none (1 / 100000) none none none false
          none none (fun _ _ => []) = (.ok (some ([], 0)), GMLog.empty) ∧
      (cg ⟨[0, 0], [], 'd'⟩ ⟨[0], [], 'd'⟩ none (1 / 100000) none none false
          none).2.applyCount = 0 ∧
      (gmres ⟨[0, 0], [], 'd'⟩ ⟨[0], [], 'd'⟩ none (1 / 100000) none none none false
          none none (fun _ _ => [])).2.applyCount = 0) :=
  ⟨by simp [dtypeOK],
    C6_trivial_n0 ⟨[0, 0], [], 'd'⟩ ⟨[0], [], 'd'⟩ none (1 / 100000) none none
      none false none none (fun _ _ => []) rfl (by simp [dtypeOK]) (Or.inl rfl)⟩

/-- Claim C7: for every valid input to `gmres` with `n ≥ 1` where `b` is the
zero vector, `gmres` returns `(b, 0)` immediately, never invoking the
operator's `apply`. -/
theorem C7_zero_rhs (A b : Arr) (x0 : Option Arr) (tol : ℝ)
    (restart maxiter : Option ℕ) (M : Option Arr) (cb : Bool) (atol : Option ℝ)
    (cbType : Option String) (lstsqFn : List Vec → Vec → Vec) (n : ℕ)
    (hnA : A.shape.getD 0 0 = n)
    (hA : A.ndim = 2 ∧ A.shape.getD 0 0 = A.shape.getD 1 0)
    (hD : dtypeOK A.dtype)
    (hb : b.shape = [n] ∨ b.shape = [n, 1])
    (hn : n ≠ 0)
    (hbz : b.data = zeros n) :
    gmres A b x0 tol restart maxiter M cb atol cbType lstsqFn =
      (.ok (some (b.data, 0)), GMLog.empty) ∧
    (gmres A b x0 tol restart maxiter M cb atol cbType lstsqFn).2.applyCount = 0 := by
  have h := gm_eq_zero_b A b x0 tol restart maxiter M cb atol cbType lstsqFn n
    hnA hA hD hb hn (by rw [hbz, nrm_zeros])
  exact ⟨h, by rw [h]; rfl⟩

/-- Claim C7 witness: `b = [0, 0]` with `A` the 2×2 identity. -/
theorem C7_zero_rhs_witness :
    (⟨[2], [0, 0], 'd'⟩ : Arr).data = zeros 2 ∧
    (gmres ⟨[2, 2], [1, 0, 0, 1], 'd'⟩ ⟨[2], [0, 0], 'd'⟩ none (1 / 100000) none
        none none false none none (fun _ _ => []) =
      (.ok (some ((⟨[2], [0, 0], 'd'⟩ : Arr).data, 0)), GMLog.empty) ∧
    (gmres ⟨[2, 2], [1, 0, 0, 1], 'd'⟩ ⟨[2], [0, 0], 'd'⟩ none (1 / 100000) none
        none none false none none (fun _ _ => [])).2.applyCount = 0) :=
  ⟨by simp [zeros], C7_zero_rhs ⟨[2, 2], [1, 0, 0, 1], 'd'⟩ ⟨[2], [0, 0], 'd'⟩
    none (1 / 100000) none none none false none none (fun _ _ => []) 2 rfl
    (by simp [Arr.ndim]) (by simp [dtypeOK]) (Or.inl rfl) (by norm_num)
    (by simp [zeros])⟩

/-- Claim C9: when `b` is the zero vector and `n ≥ 1`, `gmres` returns
`(b, 0)` before `x0` and `callback_type` are validated: for every `x0` of
incompatible shape and every `callback_type` outside `{'x', 'pr_norm'}`, no
error is raised. -/
theorem C9_zero_rhs_skips_validation (A b : Arr) (x0a : Arr) (tol : ℝ)
    (restart maxiter : Option ℕ) (M : Option Arr) (cb : Bool) (atol : Option ℝ)
    (ct : String) (lstsqFn : List Vec → Vec → Vec) (n : ℕ)
    (hnA : A.shape.getD 0 0 = n)
    (hA : A.ndim = 2 ∧ A.shape.getD 0 0 = A.shape.getD 1 0)
    (hD : dtypeOK A.dtype)
    (hb : b.shape = [n] ∨ b.shape = [n, 1])
    (hn : n ≠ 0)
    (hbz : b.data = zeros n)
    (hx0bad : ¬ (x0a.shape = [n] ∨ x0a.shape = [n, 1]))
    (hctbad : ct ≠ "x" ∧ ct ≠ "pr_norm") :
    gmres A b (some x0a) tol restart maxiter M cb atol (some ct) lstsqFn =
      (.ok (some (b.data, 0)), GMLog.empty) :=
  gm_eq_zero_b A b (some x0a) tol restart maxiter M cb atol (some ct) lstsqFn n
    hnA hA hD hb hn (by rw [hbz, nrm_zeros])

/-- Claim C9 witness: a shape-`[5]` `x0` against a 2×2 system and an unknown
callback type. -/
theorem C9_zero_rhs_skips_validation_witness :
    (¬ ((⟨[5], [1, 1, 1, 1, 1], 'd'⟩ : Arr).shape = [2] ∨
        (⟨[5], [1, 1, 1, 1, 1], 'd'⟩ : Arr).shape = [2, 1]) ∧
      ("bogus" ≠ "x" ∧ "bogus" ≠ "pr_norm")) ∧
    gmres ⟨[2, 2], [1, 0, 0, 1], 'd'⟩ ⟨[2], [0, 0], 'd'⟩
        (some ⟨[5], [1, 1, 1, 1, 1], 'd'⟩) (1 / 100000) none none none false none
        (some "bogus") (fun _ _ => []) =
      (.ok (some ((⟨[2], [0, 0], 'd'⟩ : Arr).data, 0)), GMLog.empty) :=
  ⟨⟨by simp, by simp⟩,
    C9_zero_rhs_skips_validation ⟨[2, 2], [1, 0, 0, 1], 'd'⟩ ⟨[2], [0, 0], 'd'⟩
      ⟨[5], [1, 1, 1, 1, 1], 'd'⟩ (1 / 100000) none none none false none "bogus"
      (fun _ _ => []) 2 rfl (by simp [Arr.ndim]) (by simp [dtypeOK]) (Or.inl rfl)
      (by norm_num) (by simp [zeros]) (by simp) ⟨by simp, by simp⟩⟩

/-- Claim C10: for every valid input with `n ≥ 1` and a caller-supplied
`maxiter = 0`, `cg`'s loop body never executes and the final residual test
reads the never-assigned local `resid`, so the call fails (Python
`NameError`) instead of returning; the log records zero completed iterations
and one operator application (the initial residual). -/
theorem C10_maxiter0_error (A b : Arr) (x0 : Option Arr) (tol : ℝ)
    (M : Option Arr) (cb : Bool) (atol : Option ℝ) (n : ℕ)
    (hnA : A.shape.getD 0 0 = n)
    (hA : A.ndim = 2 ∧ A.shape.getD 0 0 = A.shape.getD 1 0)
    (hD : dtypeOK A.dtype)
    (hb : b.shape = [n] ∨ b.shape = [n, 1])
    (hn : n ≠ 0)
    (hx0 : ∀ a ∈ x0, a.shape = [n] ∨ a.shape = [n, 1])
    (hM : ∀ m ∈ M, m.shape = A.shape) :
    cg A b x0 tol (some 0) M cb atol =
      (.error .nameResid,
        ⟨1, [], 0, none, some (effAtolCG atol tol (nrm b.data))⟩) := by
  rw [cg_eq_core A b x0 tol (some 0) M cb atol n hnA hA hD hb hn hx0 hM]
  simp [cgCore, cgLoop]

/-- Claim C10 witness: the 2×2 identity system with `maxiter = 0`. -/
theorem C10_maxiter0_error_witness :
    ((2 : ℕ) ≠ 0) ∧
    cg ⟨[2, 2], [1, 0, 0, 1], 'd'⟩ ⟨[2], [3, 4], 'd'⟩ none (1 / 100000) (some 0)
        none false none =
      (.error .nameResid,
        ⟨1, [], 0, none,
          some (effAtolCG none (1 / 100000) (nrm (⟨[2], [3, 4], 'd'⟩ : Arr).data))⟩) :=
  ⟨by norm_num,
    C10_maxiter0_error ⟨[2, 2], [1, 0, 0, 1], 'd'⟩ ⟨[2], [3, 4], 'd'⟩ none
      (1 / 100000) none false none 2 rfl (by simp [Arr.ndim]) (by simp [dtypeOK])
      (Or.inl rfl) (by norm_num) (by simp) (by simp)⟩

/-- Claim C2: for both solvers, the effective absolute tolerance used in the
convergence test equals `tol` when `atol` is unspecified and `‖b‖ = 0`,
`tol * ‖b‖` when `atol` is unspecified and `‖b‖ ≠ 0`, and
`max(atol, tol * ‖b‖)` when `atol` is supplied.  For `cg` this is the logged
tolerance in all three cases; `gmres` with `‖b‖ ≠ 0` logs the same two
supplied/unsupplied cases, and with `‖b‖ = 0` it returns `(b, 0)` before any
convergence test is performed (the log records no cycle boundaries), so
every test it does perform uses the stated tolerance. -/
theorem C2_effective_tolerance :
    (∀ (A b : Arr) (x0 : Option Arr) (tol : ℝ) (maxiter : Option ℕ)
      (M : Option Arr) (cb : Bool) (atol : Option ℝ) (n : ℕ),
      A.shape.getD 0 0 = n →
      (A.ndim = 2 ∧ A.shape.getD 0 0 = A.shape.getD 1 0) → dtypeOK A.dtype →
      (b.shape = [n] ∨ b.shape = [n, 1]) → n ≠ 0 →
      (∀ a ∈ x0, a.shape = [n] ∨ a.shape = [n, 1]) →
      (∀ m ∈ M, m.shape = A.shape) →
      (cg A b x0 tol maxiter M cb atol).2.usedAtol =
        some (match atol with
          | none => if nrm b.data = 0 then tol else tol * nrm b.data
          | some a => max a (tol * nrm b.data))) ∧
    (∀ (A b : Arr) (x0 : Option Arr) (tol : ℝ) (restart maxiter : Option ℕ)
      (M : Option Arr) (cb : Bool) (atol : Option ℝ) (cbType : Option String)
      (lstsqFn : List Vec → Vec → Vec) (n : ℕ),
      A.shape.getD 0 0 = n →
      (A.ndim = 2 ∧ A.shape.getD 0 0 = A.shape.getD 1 0) → dtypeOK A.dtype →
      (b.shape = [n] ∨ b.shape = [n, 1]) → n ≠ 0 →
      ¬ nrm b.data = 0 →
      (∀ a ∈ x0, a.shape = [n] ∨ a.shape = [n, 1]) →
      (cbType.getD "pr_norm" = "x" ∨ cbType.getD "pr_norm" = "pr_norm") →
      (∀ m ∈ M, m.shape = A.shape) →
      (gmres A b x0 tol restart maxiter M cb atol cbType lstsqFn).2.usedAtol =
        some (match atol with
          | none => tol * nrm b.data
          | some a => max a (tol * nrm b.data))) ∧
    (∀ (A b : Arr) (x0 : Option Arr) (tol : ℝ) (restart maxiter : Option ℕ)
      (M : Option Arr) (cb : Bool) (atol : Option ℝ) (cbType : Option String)
      (lstsqFn : List Vec → Vec → Vec) (n : ℕ),
      A.shape.getD 0 0 = n →
      (A.ndim = 2 ∧ A.shape.getD 0 0 = A.shape.getD 1 0) → dtypeOK A.dtype →
      (b.shape = [n] ∨ b.shape = [n, 1]) → n ≠ 0 →
      nrm b.data = 0 →
      gmres A b x0 tol restart maxiter M cb atol cbType lstsqFn =
        (.ok (some (b.data, 0)), GMLog.empty) ∧
      (gmres A b x0 tol restart maxiter M cb atol cbType lstsqFn).2.checks = []) := by
  refine ⟨?_, ?_, ?_⟩
  · intro A b x0 tol maxiter M cb atol n hnA hA hD hb hn hx0 hM
    rw [cg_eq_core A b x0 tol maxiter M cb atol n hnA hA hD hb hn hx0 hM,
      cgCore_usedAtol]
    cases atol <;> rfl
  · intro A b x0 tol restart maxiter M cb atol cbType lstsqFn n hnA hA hD hb hn
      hbn hx0 hct hM
    rw [gm_eq_core A b x0 tol restart maxiter M cb atol cbType lstsqFn n hnA hA
      hD hb hn hbn hx0 hct hM, gmCore_usedAtol]
    cases atol <;> rfl
  · intro A b x0 tol restart maxiter M cb atol cbType lstsqFn n hnA hA hD hb hn
      hbz
    have h := gm_eq_zero_b A b x0 tol restart maxiter M cb atol cbType lstsqFn n
      hnA hA hD hb hn hbz
    exact ⟨h, by rw [h]; rfl⟩

/-- Claim C2 witness: the 2×2 identity system, `atol` unspecified, plus the
zero-`b` case. -/
theorem C2_effective_tolerance_witness :
    (cg ⟨[2, 2], [1, 0, 0, 1], 'd'⟩ ⟨[2], [3, 4], 'd'⟩ none (1 / 100000) none
        none false none).2.usedAtol =
      some (if nrm (⟨[2], [3, 4], 'd'⟩ : Arr).data = 0 then (1 / 100000 : ℝ)
        else 1 / 100000 * nrm (⟨[2], [3, 4], 'd'⟩ : Arr).data) ∧
    gmres ⟨[2, 2], [1, 0, 0, 1], 'd'⟩ ⟨[2], [0, 0], 'd'⟩ none (1 / 100000) none
        none none false none none (fun _ _ => []) =
      (.ok (some ((⟨[2], [0, 0], 'd'⟩ : Arr).data, 0)), GMLog.empty) :=
  ⟨C2_effective_tolerance.1 ⟨[2, 2], [1, 0, 0, 1], 'd'⟩ ⟨[2], [3, 4], 'd'⟩ none
      (1 / 100000) none none false none 2 rfl (by simp [Arr.ndim])
      (by simp [dtypeOK]) (Or.inl rfl) (by norm_num) (by simp) (by simp),
    (C2_effective_tolerance.2.2 ⟨[2, 2], [1, 0, 0, 1], 'd'⟩ ⟨[2], [0, 0], 'd'⟩
      none (1 / 100000) none none none false none none (fun _ _ => []) 2 rfl
      (by simp [Arr.ndim]) (by simp [dtypeOK]) (Or.inl rfl) (by norm_num)
      (by simp [nrm, dotc])).1⟩

set_option maxHeartbeats 1000000 in
/-- Claim C3: for every `A` that is not a square 2-dimensional matrix, both
solvers fail with the square-matrix shape `ValueError` (spec: `ShapeError`);
for every `b` whose shape is neither `(n,)` nor `(n, 1)` (with `A` square and
of supported dtype), both fail with the `b`-shape `ValueError`; and every
setup error — every error either solver can produce except `cg`'s
late `NameError` — leaves the operator-application count at zero, i.e. is
raised before any application of `A`. -/
theorem C3_shape_validation :
    (∀ (A b : Arr) (x0 : Option Arr) (tol : ℝ) (restart maxiter : Option ℕ)
      (M : Option Arr) (cb : Bool) (atol : Option ℝ) (cbType : Option String)
      (lstsqFn : List Vec → Vec → Vec),
      ¬ (A.ndim = 2 ∧ A.shape.getD 0 0 = A.shape.getD 1 0) →
      cg A b x0 tol maxiter M cb atol = (.error .shapeA, CGLog.empty) ∧
      gmres A b x0 tol restart maxiter M cb atol cbType lstsqFn =
        (.error .shapeA, GMLog.empty)) ∧
    (∀ (A b : Arr) (x0 : Option Arr) (tol : ℝ) (restart maxiter : Option ℕ)
      (M : Option Arr) (cb : Bool) (atol : Option ℝ) (cbType : Option String)
      (lstsqFn : List Vec → Vec → Vec) (n : ℕ),
      A.shape.getD 0 0 = n →
      (A.ndim = 2 ∧ A.shape.getD 0 0 = A.shape.getD 1 0) → dtypeOK A.dtype →
      ¬ (b.shape = [n] ∨ b.shape = [n, 1]) →
      cg A b x0 tol maxiter M cb atol = (.error .shapeB, CGLog.empty) ∧
      gmres A b x0 tol restart maxiter M cb atol cbType lstsqFn =
        (.error .shapeB, GMLog.empty)) ∧
    (∀ (A b : Arr) (x0 : Option Arr) (tol : ℝ) (maxiter : Option ℕ)
      (M : Option Arr) (cb : Bool) (atol : Option ℝ) (e : Err) (lg : CGLog),
      cg A b x0 tol maxiter M cb atol = (.error e, lg) → e ≠ .nameResid →
      lg.applyCount = 0) ∧
    (∀ (A b : Arr) (x0 : Option Arr) (tol : ℝ) (restart maxiter : Option ℕ)
      (M : Option Arr) (cb : Bool) (atol : Option ℝ) (cbType : Option String)
      (lstsqFn : List Vec → Vec → Vec) (e : Err) (lg : GMLog),
      gmres A b x0 tol restart maxiter M cb atol cbType lstsqFn =
        (.error e, lg) →
      lg.applyCount = 0) ∧
    Err.isShape .shapeA ∧ Err.isShape .shapeB := by
  refine ⟨?_, ?_, ?_, ?_, trivial, trivial⟩
  · intro A b x0 tol restart maxiter M cb atol cbType lstsqFn h
    constructor
    · simp only [cg]
      rw [if_neg h]
    · simp only [gmres]
      rw [if_neg h]
  · intro A b x0 tol restart maxiter M cb atol cbType lstsqFn n hnA hA hD hbbad
    constructor
    · simp only [cg, hnA]
      rw [if_pos (show A.ndim = 2 ∧ n = A.shape.getD 1 0 from ⟨hA.1, hnA ▸ hA.2⟩),
        if_pos hD, if_neg hbbad]
    · simp only [gmres, hnA]
      rw [if_pos (show A.ndim = 2 ∧ n = A.shape.getD 1 0 from ⟨hA.1, hnA ▸ hA.2⟩),
        if_pos hD, if_neg hbbad]
  · intro A b x0 tol maxiter M cb atol e lg herr hne
    rcases x0 with _ | xa <;> rcases M with _ | Ma <;>
      simp only [cg, cgMain] at herr <;>
      split_ifs at herr <;>
      first
        | (injection herr with h1 h2
           cases h1 <;> (subst h2; rfl))
        | exact absurd (cgCore_error _ _ _ _ _ _ _ _ (congrArg Prod.fst herr)) hne
  · intro A b x0 tol restart maxiter M cb atol cbType lstsqFn e lg herr
    rcases x0 with _ | xa <;> rcases M with _ | Ma <;>
      simp only [gmres, gmMain] at herr <;>
      split_ifs at herr <;>
      first
        | (injection herr with h1 h2
           cases h1 <;> (subst h2; rfl))
        | (obtain ⟨r, hr⟩ := gmCore_ok _ _ _ _ _ _ _ _ _ _ _
           exact Except.noConfusion (hr.symm.trans (congrArg Prod.fst herr)))

/-- Claim C3 witness: a 2×3 matrix, and a length-3 `b` against a 2×2
matrix. -/
theorem C3_shape_validation_witness :
    (¬ ((⟨[2, 3], [1, 0, 0, 0, 1, 0], 'd'⟩ : Arr).ndim = 2 ∧
        (⟨[2, 3], [1, 0, 0, 0, 1, 0], 'd'⟩ : Arr).shape.getD 0 0 =
          (⟨[2, 3], [1, 0, 0, 0, 1, 0], 'd'⟩ : Arr).shape.getD 1 0)) ∧
    cg ⟨[2, 3], [1, 0, 0, 0, 1, 0], 'd'⟩ ⟨[2], [1, 1], 'd'⟩ none (1 / 100000)
        none none false none = (.error .shapeA, CGLog.empty) ∧
    gmres ⟨[2, 2], [1, 0, 0, 1], 'd'⟩ ⟨[3], [1, 1, 1], 'd'⟩ none (1 / 100000)
        none none none false none none (fun _ _ => []) =
      (.error .shapeB, GMLog.empty) :=
  ⟨by simp [Arr.ndim],
    (C3_shape_validation.1 ⟨[2, 3], [1, 0, 0, 0, 1, 0], 'd'⟩ ⟨[2], [1, 1], 'd'⟩
      none (1 / 100000) none none none false none none (fun _ _ => [])
      (by simp [Arr.ndim])).1,
    (C3_shape_validation.2.1 ⟨[2, 2], [1, 0, 0, 1], 'd'⟩ ⟨[3], [1, 1, 1], 'd'⟩
      none (1 / 100000) none none none false none none (fun _ _ => []) 2 rfl
      (by simp [Arr.ndim]) (by simp [dtypeOK]) (by simp)).2⟩

/-- Claim C1 (amended): on every input that passes setup validation with
`n ≥ 1` and nonzero `b`, and that returns at all: `cg` (whose loop runs at
least one iteration, i.e. `maxiter ≥ 1`) returns info `0` when the exit
residual passed the tolerance test and `maxiter` otherwise; `gmres` (with
effective restart ≥ 1) returns info `0` when the exit residual passed the
test, and otherwise returns `maxiter` exactly when its cycle-granular
iteration count landed on `maxiter` (as when restart divides maxiter) — when
the count overshoots `maxiter`, it returns `0` despite not having
converged. -/
theorem C1_status_info :
    (∀ (A b : Arr) (x0 : Option Arr) (tol : ℝ) (maxiter : Option ℕ)
      (M : Option Arr) (cb : Bool) (atol : Option ℝ) (n : ℕ),
      A.shape.getD 0 0 = n →
      (A.ndim = 2 ∧ A.shape.getD 0 0 = A.shape.getD 1 0) → dtypeOK A.dtype →
      (b.shape = [n] ∨ b.shape = [n, 1]) → n ≠ 0 →
      (∀ a ∈ x0, a.shape = [n] ∨ a.shape = [n, 1]) →
      (∀ m ∈ M, m.shape = A.shape) →
      1 ≤ maxiter.getD (n * 10) →
      ∃ xv rs,
        (cg A b x0 tol maxiter M cb atol).2.exitResid = some rs ∧
        (cg A b x0 tol maxiter M cb atol).1 =
          .ok (xv, if rs ≤ effAtolCG atol tol (nrm b.data) then 0
                   else maxiter.getD (n * 10))) ∧
    (∀ (A b : Arr) (x0 : Option Arr) (tol : ℝ) (restart maxiter : Option ℕ)
      (M : Option Arr) (cb : Bool) (atol : Option ℝ) (cbType : Option String)
      (lstsqFn : List Vec → Vec → Vec) (n : ℕ),
      A.shape.getD 0 0 = n →
      (A.ndim = 2 ∧ A.shape.getD 0 0 = A.shape.getD 1 0) → dtypeOK A.dtype →
      (b.shape = [n] ∨ b.shape = [n, 1]) → n ≠ 0 →
      ¬ nrm b.data = 0 →
      (∀ a ∈ x0, a.shape = [n] ∨ a.shape = [n, 1]) →
      (cbType.getD "pr_norm" = "x" ∨ cbType.getD "pr_norm" = "pr_norm") →
      (∀ m ∈ M, m.shape = A.shape) →
      1 ≤ min (restart.getD 20) n →
      ∃ xv rs,
        (gmres A b x0 tol restart maxiter M cb atol cbType lstsqFn).2.exitResid =
          some rs ∧
        (gmres A b x0 tol restart maxiter M cb atol cbType lstsqFn).1 =
          .ok (some (xv,
            if (gmres A b x0 tol restart maxiter M cb atol cbType
                  lstsqFn).2.exitIters = maxiter.getD (n * 10) ∧
               ¬ (rs ≤ effAtolGM atol tol (nrm b.data))
            then maxiter.getD (n * 10) else 0))) := by
  constructor
  · intro A b x0 tol maxiter M cb atol n hnA hA hD hb hn hx0 hM hmx
    rw [cg_eq_core A b x0 tol maxiter M cb atol n hnA hA hD hb hn hx0 hM,
      cgCore_eq _ _ _ _ _ _ _ _ rfl]
    set apA := matApply n A.data
    set apM := apMOf n M
    set atolE := effAtolCG atol tol (nrm b.data)
    set maxit := maxiter.getD (n * 10)
    set s0 : CGState :=
      ⟨xInitOf n x0, vsub b.data (apA (xInitOf n x0)), [], 0, 0, none, 1, []⟩
      with hs0
    set sF := cgLoop apA apM atolE cb maxit s0 with hsF
    have hsome : sF.resid.isSome :=
      cgLoop_resid_some apA apM atolE cb maxit s0 hmx
    obtain ⟨rs, hrs⟩ := Option.isSome_iff_exists.mp hsome
    refine ⟨sF.x, rs, hrs, ?_⟩
    by_cases hit : sF.iters = maxit
    · rw [if_pos hit, hrs]
      show Except.ok (sF.x, if ¬ rs ≤ atolE then sF.iters else 0) =
        Except.ok (sF.x, if rs ≤ atolE then 0 else maxit)
      by_cases hconv : rs ≤ atolE
      · rw [if_neg (not_not_intro hconv), if_pos hconv]
      · rw [if_pos hconv, if_neg hconv, hit]
    · rw [if_neg hit]
      show Except.ok (sF.x, 0) =
        Except.ok (sF.x, if rs ≤ atolE then 0 else maxit)
      rcases cgLoop_exit apA apM atolE cb maxit s0 with hfull | ⟨rs2, hrs2, hle⟩
      · exfalso
        rw [← hsF] at hfull
        have hz : s0.iters = 0 := rfl
        omega
      · rw [← hsF] at hrs2
        rw [hrs2] at hrs
        injection hrs with hrs
        rw [if_pos (hrs ▸ hle)]
  · intro A b x0 tol restart maxiter M cb atol cbType lstsqFn n hnA hA hD hb hn
      hbn hx0 hct hM hrst
    rw [gm_eq_core A b x0 tol restart maxiter M cb atol cbType lstsqFn n hnA hA
      hD hb hn hbn hx0 hct hM]
    set apA := matApply n A.data
    set apM := apMOf n M
    set atolE := effAtolGM atol tol (nrm b.data)
    set maxit := maxiter.getD (n * 10)
    set rst := min (restart.getD 20) n
    set cte : Option String :=
      if cb then some (cbType.getD "pr_norm") else none
    set s0 : GMState := ⟨xInitOf n x0, 0, 0, [], []⟩ with hs0
    have hsome := gmLoop_some apA apM b.data (nrm b.data) atolE rst maxit n cte
      lstsqFn (maxit + 1) s0 hrst (by omega) (by simp [hs0])
    rcases hout : gmLoop apA apM b.data (nrm b.data) atolE rst maxit n cte
      lstsqFn (maxit + 1) s0 with ⟨o, sF⟩
    rw [hout] at hsome
    match o, hsome with
    | some (mx, rn), _ =>
      rw [gmCore_eq apA apM b.data (xInitOf n x0) (nrm b.data) atolE rst maxit n
        cte lstsqFn mx rn sF hout]
      refine ⟨mx, rn, rfl, ?_⟩
      show Except.ok (some (mx,
          if sF.iters = maxit ∧ ¬ rn ≤ atolE then sF.iters else 0)) =
        Except.ok (some (mx,
          if sF.iters = maxit ∧ ¬ rn ≤ atolE then maxit else 0))
      by_cases hc : sF.iters = maxit ∧ ¬ rn ≤ atolE
      · rw [if_pos hc, if_pos hc, hc.1]
      · rw [if_neg hc, if_neg hc]

/-- Claim C1 witness (for the amended statement): the 2×2 identity system for
`cg`, and a `gmres` run started at the exact solution. -/
theorem C1_status_info_witness :
    (∃ xv rs,
      (cg ⟨[2, 2], [1, 0, 0, 1], 'd'⟩ ⟨[2], [3, 4], 'd'⟩ none (1 / 100000) none
          none false none).2.exitResid = some rs ∧
      (cg ⟨[2, 2], [1, 0, 0, 1], 'd'⟩ ⟨[2], [3, 4], 'd'⟩ none (1 / 100000) none
          none false none).1 =
        .ok (xv, if rs ≤ effAtolCG none (1 / 100000)
              (nrm (⟨[2], [3, 4], 'd'⟩ : Arr).data) then 0 else 20)) ∧
    (∃ xv rs,
      (gmres ⟨[2, 2], [1, 0, 0, 1], 'd'⟩ ⟨[2], [3, 4], 'd'⟩
          (some ⟨[2], [3, 4], 'd'⟩) (1 / 100000) none none none false none none
          (fun _ _ => [])).2.exitResid = some rs ∧
      (gmres ⟨[2, 2], [1, 0, 0, 1], 'd'⟩ ⟨[2], [3, 4], 'd'⟩
          (some ⟨[2], [3, 4], 'd'⟩) (1 / 100000) none none none false none none
          (fun _ _ => [])).1 =
        .ok (some (xv,
          if (gmres ⟨[2, 2], [1, 0, 0, 1], 'd'⟩ ⟨[2], [3, 4], 'd'⟩
                (some ⟨[2], [3, 4], 'd'⟩) (1 / 100000) none none none false none
                none (fun _ _ => [])).2.exitIters = 20 ∧
             ¬ (rs ≤ effAtolGM none (1 / 100000)
                  (nrm (⟨[2], [3, 4], 'd'⟩ : Arr).data))
          then 20 else 0))) := by
  constructor
  · exact C1_status_info.1 ⟨[2, 2], [1, 0, 0, 1], 'd'⟩ ⟨[2], [3, 4], 'd'⟩ none
      (1 / 100000) none none false none 2 rfl (by simp [Arr.ndim])
      (by simp [dtypeOK]) (Or.inl rfl) (by norm_num) (by simp) (by simp)
      (by norm_num)
  · refine C1_status_info.2 ⟨[2, 2], [1, 0, 0, 1], 'd'⟩ ⟨[2], [3, 4], 'd'⟩
      (some ⟨[2], [3, 4], 'd'⟩) (1 / 100000) none none none false none none
      (fun _ _ => []) 2 rfl (by simp [Arr.ndim]) (by simp [dtypeOK])
      (Or.inl rfl) (by norm_num) ?_ (by simp) (Or.inr rfl) (by simp)
      (by norm_num)
    have h34 : dotc [(3 : ℝ), 4] [3, 4] = 25 := by
      norm_num [dotc]
    show ¬ nrm [3, 4] = 0
    rw [nrm, h34, show (25 : ℝ) = 5 ^ 2 by norm_num,
      Real.sqrt_sq (by norm_num : (0 : ℝ) ≤ 5)]
    norm_num

/-- The logged callback trace and boundary checks of `gmCore` are those of
the loop's final state, whether or not the model's fuel sufficed. -/
theorem gmCore_log (apA apM : Vec → Vec) (bv xi : Vec) (bNorm atolE : ℝ)
    (rst maxit n : ℕ) (cte : Option String) (lstsqFn : List Vec → Vec → Vec) :
    (gmCore apA apM bv xi bNorm atolE rst maxit n cte lstsqFn).2.cbTrace =
      (gmLoop apA apM bv bNorm atolE rst maxit n cte lstsqFn (maxit + 1)
        ⟨xi, 0, 0, [], []⟩).2.cbTrace ∧
    (gmCore apA apM bv xi bNorm atolE rst maxit n cte lstsqFn).2.checks =
      (gmLoop apA apM bv bNorm atolE rst maxit n cte lstsqFn (maxit + 1)
        ⟨xi, 0, 0, [], []⟩).2.checks := by
  simp only [gmCore]
  rcases h : gmLoop apA apM bv bNorm atolE rst maxit n cte lstsqFn (maxit + 1)
    ⟨xi, 0, 0, [], []⟩ with ⟨o, sF⟩
  cases o with
  | none => exact ⟨rfl, rfl⟩
  | some p =>
    rcases p with ⟨mx, rn⟩
    exact ⟨rfl, rfl⟩

/-- `‖[3, 4]‖ = 5`: used to discharge nonzero-right-hand-side hypotheses in
witnesses. -/
theorem nrm_34 : nrm [3, 4] = 5 := by
  have h34 : dotc [(3 : ℝ), 4] [3, 4] = 25 := by
    norm_num [dotc]
  rw [nrm, h34, show (25 : ℝ) = 5 ^ 2 by norm_num,
    Real.sqrt_sq (by norm_num : (0 : ℝ) ≤ 5)]

/-- Claim C4: on every input on which `gmres` runs at least one termination
check (i.e. passes setup with `n ≥ 1`, nonzero `b`, and a terminating run),
the solution component of the return value is the preconditioned point
`mx = M.apply(x)` computed at the start of the final cycle (`apMOf` is the
identity when `M` is unspecified), where `x` is the internally tracked
iterate at exit — not `x` itself. -/
theorem C4_returns_mx (A b : Arr) (x0 : Option Arr) (tol : ℝ)
    (restart maxiter : Option ℕ) (M : Option Arr) (cb : Bool) (atol : Option ℝ)
    (cbType : Option String) (lstsqFn : List Vec → Vec → Vec) (n : ℕ)
    (hnA : A.shape.getD 0 0 = n)
    (hA : A.ndim = 2 ∧ A.shape.getD 0 0 = A.shape.getD 1 0)
    (hD : dtypeOK A.dtype)
    (hb : b.shape = [n] ∨ b.shape = [n, 1])
    (hn : n ≠ 0)
    (hbn : ¬ nrm b.data = 0)
    (hx0 : ∀ a ∈ x0, a.shape = [n] ∨ a.shape = [n, 1])
    (hct : cbType.getD "pr_norm" = "x" ∨ cbType.getD "pr_norm" = "pr_norm")
    (hM : ∀ m ∈ M, m.shape = A.shape)
    (hrst : 1 ≤ min (restart.getD 20) n) :
    ∃ info,
      (gmres A b x0 tol restart maxiter M cb atol cbType lstsqFn).1 =
        .ok (some (apMOf n M
          ((gmres A b x0 tol restart maxiter M cb atol cbType
            lstsqFn).2.exitX), info)) := by
  rw [gm_eq_core A b x0 tol restart maxiter M cb atol cbType lstsqFn n hnA hA
    hD hb hn hbn hx0 hct hM]
  set apA := matApply n A.data with hapA
  set apM := apMOf n M with hapM
  set atolE := effAtolGM atol tol (nrm b.data)
  set maxit := maxiter.getD (n * 10)
  set rst := min (restart.getD 20) n
  set cte : Option String := if cb then some (cbType.getD "pr_norm") else none
  set s0 : GMState := ⟨xInitOf n x0, 0, 0, [], []⟩ with hs0
  have hsome := gmLoop_some apA apM b.data (nrm b.data) atolE rst maxit n cte
    lstsqFn (maxit + 1) s0 hrst (by omega) (by simp [hs0])
  rcases hout : gmLoop apA apM b.data (nrm b.data) atolE rst maxit n cte
    lstsqFn (maxit + 1) s0 with ⟨o, sF⟩
  rw [hout] at hsome
  match o, hsome with
  | some (mx, rn), _ =>
    rw [gmCore_eq apA apM b.data (xInitOf n x0) (nrm b.data) atolE rst maxit n
      cte lstsqFn mx rn sF hout]
    have hmxe : mx = apM sF.x := by
      have h := gmLoop_mx apA apM b.data (nrm b.data) atolE rst maxit n cte
        lstsqFn (maxit + 1) s0 mx rn (by rw [hout])
      rw [hout] at h
      exact h
    refine ⟨if sF.iters = maxit ∧ ¬ (rn ≤ atolE) then sF.iters else 0, ?_⟩
    show Except.ok (some (mx, _)) = Except.ok (some (apM sF.x, _))
    rw [hmxe]

/-- Claim C4 witness: `gmres` started at the exact solution of the 2×2
identity system; the returned solution is the preconditioned final
iterate. -/
theorem C4_returns_mx_witness :
    ((2 : ℕ) ≠ 0 ∧ ¬ nrm (⟨[2], [3, 4], 'd'⟩ : Arr).data = 0) ∧
    ∃ info,
      (gmres ⟨[2, 2], [1, 0, 0, 1], 'd'⟩ ⟨[2], [3, 4], 'd'⟩
          (some ⟨[2], [3, 4], 'd'⟩) (1 / 100000) none none none false none none
          (fun _ _ => [])).1 =
        .ok (some (apMOf 2 none
          ((gmres ⟨[2, 2], [1, 0, 0, 1], 'd'⟩ ⟨[2], [3, 4], 'd'⟩
              (some ⟨[2], [3, 4], 'd'⟩) (1 / 100000) none none none false none
              none (fun _ _ => [])).2.exitX), info)) :=
  ⟨⟨by norm_num, by show ¬ nrm [3, 4] = 0; rw [nrm_34]; norm_num⟩,
    C4_returns_mx ⟨[2, 2], [1, 0, 0, 1], 'd'⟩ ⟨[2], [3, 4], 'd'⟩
      (some ⟨[2], [3, 4], 'd'⟩) (1 / 100000) none none none false none none
      (fun _ _ => []) 2 rfl (by simp [Arr.ndim]) (by simp [dtypeOK])
      (Or.inl rfl) (by norm_num)
      (by show ¬ nrm [3, 4] = 0; rw [nrm_34]; norm_num) (by simp) (Or.inr rfl)
      (by simp) (by norm_num)⟩

/-- Claim C5: for every valid input with `n ≥ 1` (and at least one permitted
iteration), `cg` performs exactly the spec's recurrence: starting from
`r₀ = b − A·x₀`, each iteration computes `z = M·r`, `ρ = ⟨r, z⟩`, `p = z`
first and `p = z + (ρ/ρ_prev)·p` afterwards, `q = A·p`, `α = ρ/⟨p, q⟩`,
`x += α·p`, `r −= α·q`; and it stops when `‖r‖` is at most the effective
tolerance or the iteration count reaches `maxiter`.  Formally: the returned
solution, the iteration count, and the exit residual all equal those of
`cgSpecRun` (the runner written from the spec's words), and the final spec
state satisfies the stopping condition. -/
theorem C5_cg_recurrence (A b : Arr) (x0 : Option Arr) (tol : ℝ)
    (maxiter : Option ℕ) (M : Option Arr) (cb : Bool) (atol : Option ℝ) (n : ℕ)
    (hnA : A.shape.getD 0 0 = n)
    (hA : A.ndim = 2 ∧ A.shape.getD 0 0 = A.shape.getD 1 0)
    (hD : dtypeOK A.dtype)
    (hb : b.shape = [n] ∨ b.shape = [n, 1])
    (hn : n ≠ 0)
    (hx0 : ∀ a ∈ x0, a.shape = [n] ∨ a.shape = [n, 1])
    (hM : ∀ m ∈ M, m.shape = A.shape)
    (hmx : 1 ≤ maxiter.getD (n * 10)) :
    ∃ info,
      (cg A b x0 tol maxiter M cb atol).1 =
        .ok ((cgSpecRun (matApply n A.data) (apMOf n M)
          (effAtolCG atol tol (nrm b.data)) (maxiter.getD (n * 10))
          ⟨xInitOf n x0, vsub b.data (matApply n A.data (xInitOf n x0)),
            [], 0, 0⟩).x, info) ∧
      (cg A b x0 tol maxiter M cb atol).2.exitIters =
        (cgSpecRun (matApply n A.data) (apMOf n M)
          (effAtolCG atol tol (nrm b.data)) (maxiter.getD (n * 10))
          ⟨xInitOf n x0, vsub b.data (matApply n A.data (xInitOf n x0)),
            [], 0, 0⟩).k ∧
      (cg A b x0 tol maxiter M cb atol).2.exitResid =
        some (nrm (cgSpecRun (matApply n A.data) (apMOf n M)
          (effAtolCG atol tol (nrm b.data)) (maxiter.getD (n * 10))
          ⟨xInitOf n x0, vsub b.data (matApply n A.data (xInitOf n x0)),
            [], 0, 0⟩).r) ∧
      (nrm (cgSpecRun (matApply n A.data) (apMOf n M)
          (effAtolCG atol tol (nrm b.data)) (maxiter.getD (n * 10))
          ⟨xInitOf n x0, vsub b.data (matApply n A.data (xInitOf n x0)),
            [], 0, 0⟩).r ≤ effAtolCG atol tol (nrm b.data) ∨
        (cgSpecRun (matApply n A.data) (apMOf n M)
          (effAtolCG atol tol (nrm b.data)) (maxiter.getD (n * 10))
          ⟨xInitOf n x0, vsub b.data (matApply n A.data (xInitOf n x0)),
            [], 0, 0⟩).k = maxiter.getD (n * 10)) := by
  rw [cg_eq_core A b x0 tol maxiter M cb atol n hnA hA hD hb hn hx0 hM,
    cgCore_eq _ _ _ _ _ _ _ _ rfl]
  set apA := matApply n A.data with hapA
  set apM := apMOf n M with hapM
  set atolE := effAtolCG atol tol (nrm b.data) with hatolE
  set maxit := maxiter.getD (n * 10) with hmaxit
  set s0 : CGState :=
    ⟨xInitOf n x0, vsub b.data (apA (xInitOf n x0)), [], 0, 0, none, 1, []⟩
    with hs0
  set t0 : CGSpecState :=
    ⟨xInitOf n x0, vsub b.data (apA (xInitOf n x0)), [], 0, 0⟩ with ht0
  set sF := cgLoop apA apM atolE cb maxit s0 with hsF
  set S := cgSpecRun apA apM atolE maxit t0 with hS
  obtain ⟨hx, hr, hp, hrho, hk⟩ :=
    cgLoop_agrees apA apM atolE cb maxit s0 t0 ⟨rfl, rfl, rfl, rfl, rfl⟩
  have hsome := cgLoop_resid_some apA apM atolE cb maxit s0 hmx
  rw [← hsF] at hsome
  obtain ⟨rs, hrs⟩ := Option.isSome_iff_exists.mp hsome
  have hrr : sF.resid = some (nrm sF.r) := by
    rcases cgLoop_resid_r apA apM atolE cb maxit s0 with heq | h
    · rw [← hsF] at heq
      rw [heq] at hrs
      exact Option.noConfusion hrs
    · rw [← hsF] at h
      exact h
  have h1 : ∃ info,
      (if sF.iters = maxit then
        match sF.resid with
        | none => Except.error Err.nameResid
        | some rs => Except.ok (sF.x, if ¬ (rs ≤ atolE) then sF.iters else 0)
      else Except.ok (sF.x, 0)) = Except.ok (sF.x, info) := by
    by_cases hit : sF.iters = maxit
    · rw [if_pos hit, hrr]
      exact ⟨_, rfl⟩
    · rw [if_neg hit]
      exact ⟨0, rfl⟩
  obtain ⟨info, hinfo⟩ := h1
  refine ⟨info, ?_, ?_, ?_, ?_⟩
  · show (if sF.iters = maxit then
        match sF.resid with
        | none => Except.error Err.nameResid
        | some rs => Except.ok (sF.x, if ¬ (rs ≤ atolE) then sF.iters else 0)
      else Except.ok (sF.x, 0)) = Except.ok (S.x, info)
    rw [← hx]
    exact hinfo
  · exact hk
  · show sF.resid = some (nrm S.r)
    rw [hrr, hr]
  · rcases cgLoop_exit apA apM atolE cb maxit s0 with hfull | ⟨rs2, hrs2, hle⟩
    · right
      rw [← hsF] at hfull
      rw [← hk, hfull, show s0.iters = 0 from rfl, Nat.zero_add]
    · left
      rw [← hsF] at hrs2
      rw [hrr] at hrs2
      injection hrs2 with hrs2
      rw [← hr, hrs2]
      exact hle

/-- Claim C5 witness: the 2×2 identity system. -/
theorem C5_cg_recurrence_witness :
    ((2 : ℕ) ≠ 0 ∧ 1 ≤ (none : Option ℕ).getD (2 * 10)) ∧
    ∃ info,
      (cg ⟨[2, 2], [1, 0, 0, 1], 'd'⟩ ⟨[2], [3, 4], 'd'⟩ none (1 / 100000) none
          none false none).1 =
        .ok ((cgSpecRun (matApply 2 (⟨[2, 2], [1, 0, 0, 1], 'd'⟩ : Arr).data)
          (apMOf 2 none)
          (effAtolCG none (1 / 100000) (nrm (⟨[2], [3, 4], 'd'⟩ : Arr).data))
          ((none : Option ℕ).getD (2 * 10))
          ⟨xInitOf 2 none,
            vsub (⟨[2], [3, 4], 'd'⟩ : Arr).data
              (matApply 2 (⟨[2, 2], [1, 0, 0, 1], 'd'⟩ : Arr).data
                (xInitOf 2 none)), [], 0, 0⟩).x, info) ∧
      (cg ⟨[2, 2], [1, 0, 0, 1], 'd'⟩ ⟨[2], [3, 4], 'd'⟩ none (1 / 100000) none
          none false none).2.exitIters =
        (cgSpecRun (matApply 2 (⟨[2, 2], [1, 0, 0, 1], 'd'⟩ : Arr).data)
          (apMOf 2 none)
          (effAtolCG none (1 / 100000) (nrm (⟨[2], [3, 4], 'd'⟩ : Arr).data))
          ((none : Option ℕ).getD (2 * 10))
          ⟨xInitOf 2 none,
            vsub (⟨[2], [3, 4], 'd'⟩ : Arr).data
              (matApply 2 (⟨[2, 2], [1, 0, 0, 1], 'd'⟩ : Arr).data
                (xInitOf 2 none)), [], 0, 0⟩).k ∧
      (cg ⟨[2, 2], [1, 0, 0, 1], 'd'⟩ ⟨[2], [3, 4], 'd'⟩ none (1 / 100000) none
          none false none).2.exitResid =
        some (nrm (cgSpecRun (matApply 2 (⟨[2, 2], [1, 0, 0, 1], 'd'⟩ : Arr).data)
          (apMOf 2 none)
          (effAtolCG none (1 / 100000) (nrm (⟨[2], [3, 4], 'd'⟩ : Arr).data))
          ((none : Option ℕ).getD (2 * 10))
          ⟨xInitOf 2 none,
            vsub (⟨[2], [3, 4], 'd'⟩ : Arr).data
              (matApply 2 (⟨[2, 2], [1, 0, 0, 1], 'd'⟩ : Arr).data
                (xInitOf 2 none)), [], 0, 0⟩).r) ∧
      (nrm (cgSpecRun (matApply 2 (⟨[2, 2], [1, 0, 0, 1], 'd'⟩ : Arr).data)
          (apMOf 2 none)
          (effAtolCG none (1 / 100000) (nrm (⟨[2], [3, 4], 'd'⟩ : Arr).data))
          ((none : Option ℕ).getD (2 * 10))
          ⟨xInitOf 2 none,
            vsub (⟨[2], [3, 4], 'd'⟩ : Arr).data
              (matApply 2 (⟨[2, 2], [1, 0, 0, 1], 'd'⟩ : Arr).data
                (xInitOf 2 none)), [], 0, 0⟩).r ≤
          effAtolCG none (1 / 100000) (nrm (⟨[2], [3, 4], 'd'⟩ : Arr).data) ∨
        (cgSpecRun (matApply 2 (⟨[2, 2], [1, 0, 0, 1], 'd'⟩ : Arr).data)
          (apMOf 2 none)
          (effAtolCG none (1 / 100000) (nrm (⟨[2], [3, 4], 'd'⟩ : Arr).data))
          ((none : Option ℕ).getD (2 * 10))
          ⟨xInitOf 2 none,
            vsub (⟨[2], [3, 4], 'd'⟩ : Arr).data
              (matApply 2 (⟨[2, 2], [1, 0, 0, 1], 'd'⟩ : Arr).data
                (xInitOf 2 none)), [], 0, 0⟩).k =
          (none : Option ℕ).getD (2 * 10)) :=
  ⟨⟨by norm_num, by norm_num⟩,
    C5_cg_recurrence ⟨[2, 2], [1, 0, 0, 1], 'd'⟩ ⟨[2], [3, 4], 'd'⟩ none
      (1 / 100000) none none false none 2 rfl (by simp [Arr.ndim])
      (by simp [dtypeOK]) (Or.inl rfl) (by norm_num) (by simp) (by simp)
      (by norm_num)⟩

/-- Claim C8: with a callback supplied, `cg` invokes it exactly once per
completed iteration, with the current iterate `x` (the trace is exactly the
list of successive iterates, one per completed iteration); `gmres` invokes
it exactly once per restart-cycle boundary: with `mx` when `callback_type`
is `'x'` (including the first pre-loop check), and with `r_norm / ‖b‖` when
`'pr_norm'`, skipping the very first pre-iteration check. -/
theorem C8_callback :
    (∀ (A b : Arr) (x0 : Option Arr) (tol : ℝ) (maxiter : Option ℕ)
      (M : Option Arr) (atol : Option ℝ) (n : ℕ),
      A.shape.getD 0 0 = n →
      (A.ndim = 2 ∧ A.shape.getD 0 0 = A.shape.getD 1 0) → dtypeOK A.dtype →
      (b.shape = [n] ∨ b.shape = [n, 1]) → n ≠ 0 →
      (∀ a ∈ x0, a.shape = [n] ∨ a.shape = [n, 1]) →
      (∀ m ∈ M, m.shape = A.shape) →
      (cg A b x0 tol maxiter M true atol).2.cbTrace =
        (List.range ((cg A b x0 tol maxiter M true atol).2.exitIters)).map
          (fun k => ((cgStepF (matApply n A.data) (apMOf n M) true)^[k + 1]
            ⟨xInitOf n x0, vsub b.data (matApply n A.data (xInitOf n x0)),
              [], 0, 0, none, 1, []⟩).x)) ∧
    (∀ (A b : Arr) (x0 : Option Arr) (tol : ℝ) (restart maxiter : Option ℕ)
      (M : Option Arr) (atol : Option ℝ) (cbType : Option String)
      (lstsqFn : List Vec → Vec → Vec) (n : ℕ),
      A.shape.getD 0 0 = n →
      (A.ndim = 2 ∧ A.shape.getD 0 0 = A.shape.getD 1 0) → dtypeOK A.dtype →
      (b.shape = [n] ∨ b.shape = [n, 1]) → n ≠ 0 →
      ¬ nrm b.data = 0 →
      (∀ a ∈ x0, a.shape = [n] ∨ a.shape = [n, 1]) →
      (cbType.getD "pr_norm" = "x" ∨ cbType.getD "pr_norm" = "pr_norm") →
      (∀ m ∈ M, m.shape = A.shape) →
      1 ≤ min (restart.getD 20) n →
      (cbType.getD "pr_norm" = "x" →
        (gmres A b x0 tol restart maxiter M true atol cbType
            lstsqFn).2.cbTrace =
          (gmres A b x0 tol restart maxiter M true atol cbType
            lstsqFn).2.checks.map (fun c => CbArg.vec c.1)) ∧
      (cbType.getD "pr_norm" = "pr_norm" →
        (gmres A b x0 tol restart maxiter M true atol cbType
            lstsqFn).2.cbTrace =
          ((gmres A b x0 tol restart maxiter M true atol cbType
            lstsqFn).2.checks.drop 1).map
              (fun c => CbArg.scal (c.2 / nrm b.data)))) := by
  constructor
  · intro A b x0 tol maxiter M atol n hnA hA hD hb hn hx0 hM
    rw [cg_eq_core A b x0 tol maxiter M true atol n hnA hA hD hb hn hx0 hM,
      cgCore_eq _ _ _ _ _ _ _ _ rfl]
    set apA := matApply n A.data with hapA
    set apM := apMOf n M with hapM
    set atolE := effAtolCG atol tol (nrm b.data)
    set maxit := maxiter.getD (n * 10)
    set s0 : CGState :=
      ⟨xInitOf n x0, vsub b.data (apA (xInitOf n x0)), [], 0, 0, none, 1, []⟩
      with hs0
    obtain ⟨m, hle, heq, hit⟩ := cgLoop_iterate apA apM atolE true maxit s0
    show (cgLoop apA apM atolE true maxit s0).cbTrace =
      (List.range (cgLoop apA apM atolE true maxit s0).iters).map
        (fun k => ((cgStepF apA apM true)^[k + 1] s0).x)
    rw [hit, heq, show s0.iters = 0 from rfl, Nat.zero_add,
      cgStepF_trace apA apM m s0, show s0.cbTrace = [] from rfl,
      List.nil_append]
  · intro A b x0 tol restart maxiter M atol cbType lstsqFn n hnA hA hD hb hn
      hbn hx0 hct hM hrst
    rw [gm_eq_core A b x0 tol restart maxiter M true atol cbType lstsqFn n hnA
      hA hD hb hn hbn hx0 hct hM]
    rw [show (if (true : Bool) = true then some (cbType.getD "pr_norm")
      else none) = some (cbType.getD "pr_norm") from rfl]
    set apA := matApply n A.data
    set apM := apMOf n M
    set atolE := effAtolGM atol tol (nrm b.data)
    set maxit := maxiter.getD (n * 10)
    set rst := min (restart.getD 20) n
    set cte : Option String := some (cbType.getD "pr_norm") with hcte
    set s0 : GMState := ⟨xInitOf n x0, 0, 0, [], []⟩ with hs0
    have hrel := gmLoop_trace apA apM b.data (nrm b.data) atolE rst maxit n cte
      lstsqFn (maxit + 1) s0 hrst
      ⟨by intro h; rfl, by intro h; rfl, by intro h; rfl⟩
      (by constructor <;> (intro h; rfl))
    obtain ⟨hlog1, hlog2⟩ := gmCore_log apA apM b.data (xInitOf n x0)
      (nrm b.data) atolE rst maxit n cte lstsqFn
    constructor
    · intro hx
      rw [hlog1, hlog2]
      exact hrel.1 (by rw [hcte, hx])
    · intro hp
      rw [hlog1, hlog2]
      exact hrel.2.1 (by rw [hcte, hp])

/-- Claim C8 witness: the 2×2 identity system with a callback, for `cg`, and
a `gmres` run started at the exact solution with `callback_type = 'x'`. -/
theorem C8_callback_witness :
    ((2 : ℕ) ≠ 0) ∧
    ((cg ⟨[2, 2], [1, 0, 0, 1], 'd'⟩ ⟨[2], [3, 4], 'd'⟩ none (1 / 100000) none
        none true none).2.cbTrace =
      (List.range ((cg ⟨[2, 2], [1, 0, 0, 1], 'd'⟩ ⟨[2], [3, 4], 'd'⟩ none
          (1 / 100000) none none true none).2.exitIters)).map
        (fun k => ((cgStepF (matApply 2 (⟨[2, 2], [1, 0, 0, 1], 'd'⟩ : Arr).data)
            (apMOf 2 none) true)^[k + 1]
          ⟨xInitOf 2 none,
            vsub (⟨[2], [3, 4], 'd'⟩ : Arr).data
              (matApply 2 (⟨[2, 2], [1, 0, 0, 1], 'd'⟩ : Arr).data
                (xInitOf 2 none)), [], 0, 0, none, 1, []⟩).x)) ∧
    ((some "x" : Option String).getD "pr_norm" = "x" →
      (gmres ⟨[2, 2], [1, 0, 0, 1], 'd'⟩ ⟨[2], [3, 4], 'd'⟩
          (some ⟨[2], [3, 4], 'd'⟩) (1 / 100000) none none none true none
          (some "x") (fun _ _ => [])).2.cbTrace =
        (gmres ⟨[2, 2], [1, 0, 0, 1], 'd'⟩ ⟨[2], [3, 4], 'd'⟩
          (some ⟨[2], [3, 4], 'd'⟩) (1 / 100000) none none none true none
          (some "x") (fun _ _ => [])).2.checks.map (fun c => CbArg.vec c.1)) :=
  ⟨by norm_num,
    C8_callback.1 ⟨[2, 2], [1, 0, 0, 1], 'd'⟩ ⟨[2], [3, 4], 'd'⟩ none
      (1 / 100000) none none none 2 rfl (by simp [Arr.ndim]) (by simp [dtypeOK])
      (Or.inl rfl) (by norm_num) (by simp) (by simp),
    (C8_callback.2 ⟨[2, 2], [1, 0, 0, 1], 'd'⟩ ⟨[2], [3, 4], 'd'⟩
      (some ⟨[2], [3, 4], 'd'⟩) (1 / 100000) none none none none (some "x")
      (fun _ _ => []) 2 rfl (by simp [Arr.ndim]) (by simp [dtypeOK])
      (Or.inl rfl) (by norm_num)
      (by show ¬ nrm [3, 4] = 0; rw [nrm_34]; norm_num) (by simp) (Or.inl rfl)
      (by simp) (by norm_num)).1⟩

/-- One-step unfolding of the cycle loop at positive fuel, stated without
`let`s so that a single cycle can be evaluated at a time. -/
theorem gmLoop_succ (apA apM : Vec → Vec) (bv : Vec) (bNorm atolE : ℝ)
    (rst maxit n : ℕ) (cte : Option String) (lstsqFn : List Vec → Vec → Vec)
    (fuel : ℕ) (s : GMState) :
    gmLoop apA apM bv bNorm atolE rst maxit n cte lstsqFn (fuel + 1) s =
      (if nrm (vsub bv (apA (apM s.x))) ≤ atolE ∨ s.iters ≥ maxit then
        (some (apM s.x, nrm (vsub bv (apA (apM s.x)))),
          ⟨s.x, s.iters, s.applyCount + 1,
            (if cte = some "x" then s.cbTrace ++ [CbArg.vec (apM s.x)]
             else if cte = some "pr_norm" ∧ 0 < s.iters then
               s.cbTrace ++ [CbArg.scal (nrm (vsub bv (apA (apM s.x))) / bNorm)]
             else s.cbTrace),
            s.checks ++ [(apM s.x, nrm (vsub bv (apA (apM s.x))))]⟩)
      else
        gmLoop apA apM bv bNorm atolE rst maxit n cte lstsqFn fuel
          ⟨vadd s.x (lincomb n
              (arnoldi apA apM n rst
                (vdiv (vsub bv (apA (apM s.x)))
                  (nrm (vsub bv (apA (apM s.x)))))).1
              (lstsqFn
                (arnoldi apA apM n rst
                  (vdiv (vsub bv (apA (apM s.x)))
                    (nrm (vsub bv (apA (apM s.x)))))).2
                (nrm (vsub bv (apA (apM s.x))) :: zeros rst))),
            s.iters + rst, s.applyCount + 1 + rst,
            (if cte = some "x" then s.cbTrace ++ [CbArg.vec (apM s.x)]
             else if cte = some "pr_norm" ∧ 0 < s.iters then
               s.cbTrace ++ [CbArg.scal (nrm (vsub bv (apA (apM s.x))) / bNorm)]
             else s.cbTrace),
            s.checks ++ [(apM s.x, nrm (vsub bv (apA (apM s.x))))]⟩) := rfl

/-- `[0, 0]` really is the least-squares minimiser of `‖H y − e‖` for the
system the counterexample run hands to the dense solver: the squared
residual at `lstsqCex H e` is a lower bound for the squared residual at any
`y`. -/
theorem lstsqCex_minimizes (y0 y1 : ℝ) :
    dotc (vsub (lincomb 3 [[0, 1, 0], [0, 0, 1]]
          (lstsqCex [[0, 1, 0], [0, 0, 1]] [1, 0, 0])) [1, 0, 0])
        (vsub (lincomb 3 [[0, 1, 0], [0, 0, 1]]
          (lstsqCex [[0, 1, 0], [0, 0, 1]] [1, 0, 0])) [1, 0, 0]) ≤
      dotc (vsub (lincomb 3 [[0, 1, 0], [0, 0, 1]] [y0, y1]) [1, 0, 0])
        (vsub (lincomb 3 [[0, 1, 0], [0, 0, 1]] [y0, y1]) [1, 0, 0]) := by
  have h : ∀ a b : ℝ, dotc (vsub (lincomb 3 [[0, 1, 0], [0, 0, 1]] [a, b])
      [1, 0, 0]) (vsub (lincomb 3 [[0, 1, 0], [0, 0, 1]] [a, b]) [1, 0, 0]) =
      1 + a ^ 2 + b ^ 2 := by
    intro a b
    simp only [dotc, vsub, lincomb, vadd, smul, zeros, List.replicate,
      List.zipWith_cons_cons, List.zipWith_nil_left, List.zipWith_nil_right,
      List.map_cons, List.map_nil, List.sum_cons, List.sum_nil,
      List.foldl_cons, List.foldl_nil]
    ring
  rw [show lstsqCex [[0, 1, 0], [0, 0, 1]] [1, 0, 0] = [0, 0] from rfl, h, h]
  nlinarith [sq_nonneg y0, sq_nonneg y1]

/-- `‖e₁‖ = 1` (length 3). -/
theorem nrm_e1 : nrm [1, 0, 0] = 1 := by
  rw [nrm, show dotc [(1 : ℝ), 0, 0] [1, 0, 0] = 1 by norm_num [dotc],
    Real.sqrt_one]

/-- `‖e₂‖ = 1` (length 3). -/
theorem nrm_e2 : nrm [0, 1, 0] = 1 := by
  rw [nrm, show dotc [(0 : ℝ), 1, 0] [0, 1, 0] = 1 by norm_num [dotc],
    Real.sqrt_one]

/-- `‖e₃‖ = 1` (length 3). -/
theorem nrm_e3 : nrm [0, 0, 1] = 1 := by
  rw [nrm, show dotc [(0 : ℝ), 0, 1] [0, 0, 1] = 1 by norm_num [dotc],
    Real.sqrt_one]

/-- The cyclic matrix sends `0` to `0`. -/
theorem Acyc_zero : matApply 3 Acyc.data [0, 0, 0] = [0, 0, 0] := by
  norm_num [matApply, Acyc, chunkRows, dotc]

/-- `A·e₁ = e₂`. -/
theorem Acyc_e1 : matApply 3 Acyc.data [1, 0, 0] = [0, 1, 0] := by
  norm_num [matApply, Acyc, chunkRows, dotc]

/-- `A·e₂ = e₃`. -/
theorem Acyc_e2 : matApply 3 Acyc.data [0, 1, 0] = [0, 0, 1] := by
  norm_num [matApply, Acyc, chunkRows, dotc]

/-- One restart cycle's Arnoldi process on the counterexample system. -/
theorem arnoldi_cex :
    arnoldi (matApply 3 Acyc.data) id 3 2 [1, 0, 0] =
      ([[1, 0, 0], [0, 1, 0]], [[0, 1, 0], [0, 0, 1]]) := by
  have h1 : (List.range 2) = [0, 1] := rfl
  rw [arnoldi, h1, List.foldl_cons, List.foldl_cons, List.foldl_nil]
  have hstep0 : arnoldiStep (matApply 3 Acyc.data) id 3 2 ([[1, 0, 0]], []) 0 =
      ([[1, 0, 0], [0, 1, 0]], [[0, 1, 0]]) := by
    simp only [arnoldiStep, id_eq, List.getD_cons_zero, Acyc_e1]
    norm_num [dotc, lincomb, vsub, vadd, smul, zeros, List.replicate,
      List.take_succ_cons, List.take_zero, List.zipWith_cons_cons,
      List.zipWith_nil_left, List.zipWith_nil_right, List.map_cons,
      List.map_nil, List.sum_cons, List.sum_nil, List.foldl_cons,
      List.foldl_nil, nrm_e2, vdiv]
  have hstep1 : arnoldiStep (matApply 3 Acyc.data) id 3 2
      ([[1, 0, 0], [0, 1, 0]], [[0, 1, 0]]) 1 =
      ([[1, 0, 0], [0, 1, 0]], [[0, 1, 0], [0, 0, 1]]) := by
    simp only [arnoldiStep, id_eq, List.getD_cons_succ, List.getD_cons_zero,
      Acyc_e2]
    norm_num [dotc, lincomb, vsub, vadd, smul, zeros, List.replicate,
      List.take_succ_cons, List.take_zero, List.zipWith_cons_cons,
      List.zipWith_nil_left, List.zipWith_nil_right, List.map_cons,
      List.map_nil, List.sum_cons, List.sum_nil, List.foldl_cons,
      List.foldl_nil, nrm_e3, vdiv]
  rw [hstep0, hstep1]

/-- The counterexample's cycle loop: one full cycle leaves `x = 0`, the
second boundary breaks on the iteration budget with `iters = 2 > maxiter = 1`
and residual norm `1`. -/
theorem gmLoop_cex :
    gmLoop (matApply 3 Acyc.data) id [1, 0, 0] 1 (1 / 100) 2 1 3 none lstsqCex
      2 ⟨[0, 0, 0], 0, 0, [], []⟩ =
      (some ([0, 0, 0], 1),
        ⟨[0, 0, 0], 2, 4, [], [([0, 0, 0], 1), ([0, 0, 0], 1)]⟩) := by
  have hv : vsub [(1 : ℝ), 0, 0] [0, 0, 0] = [1, 0, 0] := by
    norm_num [vsub]
  have hdv : vdiv [(1 : ℝ), 0, 0] 1 = [1, 0, 0] := by
    norm_num [vdiv]
  have hx1 : vadd [(0 : ℝ), 0, 0] (lincomb 3 [[1, 0, 0], [0, 1, 0]] [0, 0]) =
      [0, 0, 0] := by
    norm_num [vadd, lincomb, smul, zeros, List.replicate,
      List.zipWith_cons_cons, List.zipWith_nil_left, List.zipWith_nil_right,
      List.map_cons, List.map_nil, List.foldl_cons, List.foldl_nil]
  rw [show (2 : ℕ) = 1 + 1 from rfl, gmLoop_succ]
  simp only [id_eq, Acyc_zero, hv, nrm_e1]
  rw [if_neg (by norm_num), if_neg (by simp), if_neg (by simp), hdv,
    arnoldi_cex, show lstsqCex [[0, 1, 0], [0, 0, 1]]
      ((1 : ℝ) :: zeros 2) = [0, 0] from rfl, hx1, gmLoop_succ]
  simp only [id_eq, Acyc_zero, hv, nrm_e1]
  rw [if_pos (by norm_num), if_neg (by simp), if_neg (by simp)]
  norm_num

/-- Claim C1 counterexample: `gmres` on the cyclic 3×3 system with
`restart = 2`, `maxiter = 1`, `tol = 1/100`, which passes setup validation
with `n = 3 ≥ 1` and nonzero `b`, exits with residual norm `1` strictly
above the effective tolerance `1/100` (so the residual-norm test did not
pass), yet returns `info = 0 ≠ 1 = maxiter`: the cycle-granular iteration
count jumped from `0` to `2`, missing `maxiter = 1`. -/
theorem C1_counterexample :
    (gmres Acyc bE1 none (1 / 100) (some 2) (some 1) none false none none
        lstsqCex).1 = .ok (some ([0, 0, 0], 0)) ∧
    (gmres Acyc bE1 none (1 / 100) (some 2) (some 1) none false none none
        lstsqCex).2.exitResid = some 1 ∧
    (gmres Acyc bE1 none (1 / 100) (some 2) (some 1) none false none none
        lstsqCex).2.usedAtol = some (1 / 100) ∧
    ¬ ((1 : ℝ) ≤ 1 / 100) ∧ (0 : ℕ) ≠ 1 := by
  have hb1 : nrm bE1.data = 1 := nrm_e1
  have hmain : gmres Acyc bE1 none (1 / 100) (some 2) (some 1) none false none
      none lstsqCex =
      (.ok (some ([0, 0, 0], 0)),
        ⟨4, [], [([0, 0, 0], 1), ([0, 0, 0], 1)], 2, [0, 0, 0], some 1,
          some (1 / 100)⟩) := by
    rw [gm_eq_core Acyc bE1 none (1 / 100) (some 2) (some 1) none false none
      none lstsqCex 3 rfl (by simp [Acyc, Arr.ndim]) (by simp [Acyc, dtypeOK])
      (Or.inl rfl) (by norm_num) (by rw [hb1]; norm_num) (by simp)
      (Or.inr rfl) (by simp)]
    rw [hb1, show effAtolGM none (1 / 100) 1 = 1 / 100 by
      norm_num [effAtolGM]]
    have hcore : gmCore (matApply 3 Acyc.data) id [1, 0, 0] [0, 0, 0] 1
        (1 / 100) 2 1 3 none lstsqCex =
        (.ok (some ([0, 0, 0], 0)),
          ⟨4, [], [([0, 0, 0], 1), ([0, 0, 0], 1)], 2, [0, 0, 0], some 1,
            some (1 / 100)⟩) := by
      simp only [gmCore]
      rw [show (1 : ℕ) + 1 = 2 from rfl, gmLoop_cex]
      norm_num
    exact hcore
  refine ⟨?_, ?_, ?_, by norm_num, by norm_num⟩
  · rw [hmain]
  · rw [hmain]
  · rw [hmain]

end

end CupyIter
